import Mathlib

/-!
Shallow embedding of the transactional coordination engine of the book
marketplace (server/services/auctionService.js, purchaseService.js,
tradeService.js, balanceService.js and the mongoose models
Book.js, Bid.js, Offer.js, Trade.js, Transaction.js).

Conventions of the embedding:
* Mongo documents become Lean structures; a collection is a `List` of
  documents; `_id` is a `Nat` drawn from a `nextId` counter.
* JS number amounts and balances are `Int` (every claim is about order
  and additive arithmetic, never about float rounding).
* `new Date()` is an abstract instant `now : Nat`; date comparison on
  mongoose `Date` fields is `Nat` comparison.
* A service method that can `throw` returns `Except String MarketState`;
  a method running inside `session.withTransaction` whose callback throws
  leaves the store unchanged, which the `Except.error` branch models by
  not producing a state at all.  Writes that the source performs WITHOUT
  the ambient session (they commit on their own) are modelled separately
  where a claim depends on that distinction.
* mongoose schema validation that runs on `save()` is modelled where it
  can fire: the `Transaction` type enum (Transaction.js lines 4-11) and
  the nonnegative `amount`/`min: 0` validators.
-/

namespace BookMarket

/-- listingType enum of Book.js (legacy single-enum field; the services
read only this field). -/
inductive ListingType
  | auction
  | fixedPrice
  | tradeOnly
deriving DecidableEq, Repr

/-- status enum of Offer.js. -/
inductive OfferStatus
  | pending
  | accepted
  | rejected
  | counterOffered
  | expired
deriving DecidableEq, Repr

/-- status enum of Trade.js. -/
inductive TradeStatus
  | pending
  | accepted
  | rejected
  | completed
  | cancelled
deriving DecidableEq, Repr

/-- type field of Transaction.js; the schema enum admits only the first
four, yet balanceService.js constructs the last three. -/
inductive TxnType
  | auction
  | fixedPrice
  | offer
  | trade
  | deposit
  | withdrawal
  | transfer
deriving DecidableEq, Repr

/-- status enum of Transaction.js. -/
inductive TxnStatus
  | pending
  | completed
  | cancelled
  | failed
deriving DecidableEq, Repr

/-- Book document (Book.js); only the fields the engines read. -/
structure Book where
  id : Nat
  seller : Nat
  listingType : ListingType
  startingBid : Int := 0
  currentBid : Int := 0
  auctionEndTime : Nat := 0
  isAuctionActive : Bool := false
  fixedPrice : Int := 0
  acceptsOffers : Bool := false
  isAvailable : Bool := true
  soldTo : Option Nat := none
deriving DecidableEq, Repr

/-- Bid document (Bid.js). -/
structure Bid where
  id : Nat
  book : Nat
  bidder : Nat
  amount : Int
  isWinning : Bool := false
deriving DecidableEq, Repr

/-- Offer document (Offer.js). -/
structure Offer where
  id : Nat
  book : Nat
  buyer : Nat
  amount : Int
  counterOfferAmount : Option Int := none
  status : OfferStatus := .pending
  expiresAt : Nat
deriving DecidableEq, Repr

/-- Trade document (Trade.js). -/
structure Trade where
  id : Nat
  proposer : Nat
  recipient : Nat
  proposerBooks : List Nat
  recipientBooks : List Nat
  status : TradeStatus := .pending
deriving DecidableEq, Repr

/-- Transaction document (Transaction.js).  An absent `amount`
(trade transactions never set one) is represented as `0`. -/
structure Txn where
  id : Nat
  type : TxnType
  buyer : Option Nat := none
  seller : Nat
  book : Option Nat := none
  trade : Option Nat := none
  amount : Int := 0
  status : TxnStatus := .pending
deriving DecidableEq, Repr

/-- The persistent store: the User collection is reduced to the one field
the engines mutate, `balance` (users is an association list id-balance). -/
structure MarketState where
  users : List (Nat × Int)
  books : List Book
  bids : List Bid
  offers : List Offer
  trades : List Trade
  txns : List Txn
  nextId : Nat := 0
deriving DecidableEq, Repr

/-! ### Store primitives -/

/-- Model of `Model.updateMany` and of `findByIdAndUpdate`: rewrite every
element satisfying `p` by `f`.  Mongo ids are unique, so on well-formed
states a by-id predicate touches one document. -/
def updateWhere (p : α → Bool) (f : α → α) (l : List α) : List α :=
  l.map fun a => if p a then f a else a

/-- Model of `User.findById(u)` reading the balance. -/
def findBalance (s : MarketState) (u : Nat) : Option Int :=
  (s.users.find? fun q => q.1 == u).map (·.2)

/-- Model of `User.findByIdAndUpdate(u, inc balance d)` (a no-op when the
user does not exist, as without upsert). -/
def incBalance (s : MarketState) (u : Nat) (d : Int) : MarketState :=
  { s with users := updateWhere (fun q => q.1 == u) (fun q => (q.1, q.2 + d)) s.users }

/-- Model of `Book.findById`. -/
def findBook (s : MarketState) (id : Nat) : Option Book :=
  s.books.find? fun b => b.id == id

/-- Model of a by-id update on the Book collection. -/
def updateBook (s : MarketState) (id : Nat) (f : Book → Book) : MarketState :=
  { s with books := updateWhere (fun b => b.id == id) f s.books }

/-- Model of `Offer.findById`. -/
def findOffer (s : MarketState) (id : Nat) : Option Offer :=
  s.offers.find? fun o => o.id == id

/-- Model of `Trade.findById`. -/
def findTrade (s : MarketState) (id : Nat) : Option Trade :=
  s.trades.find? fun t => t.id == id

/-- Model of `Transaction.findById`. -/
def findTxn (s : MarketState) (id : Nat) : Option Txn :=
  s.txns.find? fun t => t.id == id

/-! ### Transaction model (Transaction.js) -/

/-- Enum of the Transaction schema, Transaction.js lines 4-11: the
balanceService types deposit, withdrawal and transfer are NOT members. -/
def txnTypeAllowed : TxnType → Bool
  | .auction => true
  | .fixedPrice => true
  | .offer => true
  | .trade => true
  | _ => false

/-- Validation run by mongoose on `transaction.save()`: the type enum,
`min: 0` on amount, and the conditionally required buyer / book / trade
references (required exactly when the type is respectively not trade,
not trade, and trade). -/
def txnValid (t : Txn) : Bool :=
  txnTypeAllowed t.type
    && decide (0 ≤ t.amount)
    && (t.type == .trade || t.buyer.isSome)
    && (t.type == .trade || t.book.isSome)
    && (t.type != .trade || t.trade.isSome)

/-- Model of constructing and saving a Transaction document; returns the
new id.  A validation failure is the `save()` throwing. -/
def txnSave (s : MarketState) (t : Txn) : Except String (MarketState × Nat) :=
  let t := { t with id := s.nextId }
  if txnValid t then
    .ok ({ s with txns := s.txns ++ [t], nextId := s.nextId + 1 }, t.id)
  else
    .error "Transaction validation failed"

/-- transactionSchema.methods.complete (Transaction.js lines 110-159):
for non-trade types, move `amount` from buyer to seller when a buyer is
set and the amount is positive - with NO balance check - and mark the
book sold; finally flip the status to completed.  (The method opens its
own session; the whole effect is atomic on its own.) -/
def txnComplete (s : MarketState) (txnId : Nat) (buyerId : Option Nat) : MarketState :=
  match findTxn s txnId with
  | none => s
  | some t =>
    let s1 :=
      if t.type != .trade then
        let s1 :=
          match t.buyer with
          | some bu => if 0 < t.amount then incBalance (incBalance s bu (-t.amount)) t.seller t.amount else s
          | none => s
        match t.book with
        | some bk => updateBook s1 bk fun b => { b with isAvailable := false, soldTo := buyerId }
        | none => s1
      else s
    { s1 with txns := updateWhere (fun x => x.id == txnId) (fun x => { x with status := .completed }) s1.txns }

/-- Transaction.createAuctionTransaction (Transaction.js lines 209-219). -/
def createAuctionTxn (s : MarketState) (bid : Bid) (book : Book) : Except String (MarketState × Nat) :=
  txnSave s { id := 0, type := .auction, buyer := some bid.bidder, seller := book.seller,
              book := some book.id, amount := bid.amount }

/-- Transaction.createFixedPriceTransaction (Transaction.js lines 222-231). -/
def createFixedPriceTxn (s : MarketState) (buyer : Nat) (book : Book) : Except String (MarketState × Nat) :=
  txnSave s { id := 0, type := .fixedPrice, buyer := some buyer, seller := book.seller,
              book := some book.id, amount := book.fixedPrice }

/-- Transaction.createOfferTransaction (Transaction.js lines 234-244). -/
def createOfferTxn (s : MarketState) (o : Offer) (book : Book) : Except String (MarketState × Nat) :=
  txnSave s { id := 0, type := .offer, buyer := some o.buyer, seller := book.seller,
              book := some book.id, amount := o.amount }

/-- Transaction.createTradeTransaction (Transaction.js lines 247-254):
type trade, seller is the proposer, no amount. -/
def createTradeTxn (s : MarketState) (t : Trade) : Except String (MarketState × Nat) :=
  txnSave s { id := 0, type := .trade, seller := t.proposer, trade := some t.id }

/-! ### Auction engine (auctionService.js) -/

/-- bookSchema.methods.hasAuctionEnded (Book.js lines 165-168). -/
def hasAuctionEnded (b : Book) (now : Nat) : Bool :=
  b.listingType == .auction && b.auctionEndTime ≤ now

/-- AuctionService.placeBid (auctionService.js lines 41-148), one
`withTransaction` unit.  The validations appear in source order; the
final `amount < 0` guard is the Bid schema `min: 0` validator firing at
`bid.save`. -/
def placeBid (s : MarketState) (bookId bidderId : Nat) (amount : Int) (now : Nat) :
    Except String MarketState :=
  match findBook s bookId with
  | none => .error "Book not found"
  | some book =>
    if book.listingType != .auction then .error "This book is not an auction"
    else if !book.isAuctionActive then .error "Auction is not active"
    else if hasAuctionEnded book now then .error "Auction has ended"
    else if book.seller == bidderId then .error "Cannot bid on your own auction"
    else if amount ≤ book.currentBid then .error "Bid must be higher than current bid"
    else
      match findBalance s bidderId with
      | none => .error "User not found"
      | some bal =>
        if bal < amount then .error "Insufficient balance"
        else if amount < 0 then .error "Bid validation failed"
        else
          let bidId := s.nextId
          let s1 := { s with
            nextId := s.nextId + 1,
            bids := updateWhere (fun b => b.book == bookId) (fun b => { b with isWinning := false }) s.bids
                      ++ [{ id := bidId, book := bookId, bidder := bidderId,
                            amount := amount, isWinning := true }] }
          .ok (updateBook s1 bookId fun b => { b with currentBid := amount })

/-- AuctionService.endAuction (auctionService.js lines 151-236): no
check of `isAuctionActive` and no check of the clock; deactivate, then
settle through createAuctionTransaction + complete when a winning bid
exists.  The settlement performs NO balance re-check. -/
def endAuction (s : MarketState) (bookId : Nat) : Except String MarketState :=
  match findBook s bookId with
  | none => .error "Invalid auction"
  | some book =>
    if book.listingType != .auction then .error "Invalid auction"
    else
      let winningBid := s.bids.find? fun b => b.book == bookId && b.isWinning
      let s1 := updateBook s bookId fun b => { b with isAuctionActive := false, isAvailable := false }
      match winningBid with
      | none => .ok s1
      | some wb =>
        match createAuctionTxn s1 wb book with
        | .error e => .error e
        | .ok (s2, txnId) => .ok (txnComplete s2 txnId (some wb.bidder))

/-- The query of AuctionService.processEndedAuctions (auctionService.js
lines 26-30): active auctions whose end time has passed. -/
def expiredActiveAuctionIds (s : MarketState) (now : Nat) : List Nat :=
  (s.books.filter fun b =>
    b.listingType == .auction && b.isAuctionActive && b.auctionEndTime ≤ now).map (·.id)

/-- The loop of processEndedAuctions (auctionService.js lines 32-34) with
its surrounding try/catch (lines 25-37): `failing` is the set of listing
ids whose closure raises this tick (a transient per-listing fault).  The
catch sits OUTSIDE the loop, so the first failure stops the remaining
iterations; states committed by earlier iterations persist (each
endAuction call is its own transaction). -/
def sweepGo (failing : List Nat) : List Nat → MarketState → MarketState
  | [], s => s
  | id :: rest, s =>
    if failing.contains id then s
    else
      match endAuction s id with
      | .error _ => s
      | .ok s1 => sweepGo failing rest s1

/-- AuctionService.processEndedAuctions (auctionService.js lines 24-38):
query once, then loop. -/
def processEndedAuctions (failing : List Nat) (s : MarketState) (now : Nat) : MarketState :=
  sweepGo failing (expiredActiveAuctionIds s now) s

/-- AuctionService.manuallyEndAuction (auctionService.js lines 367-392):
seller check first, then listing-type and active checks, then the same
endAuction as the sweep; the clock is never consulted. -/
def manuallyEndAuction (s : MarketState) (bookId sellerId : Nat) : Except String MarketState :=
  match findBook s bookId with
  | none => .error "Book not found"
  | some book =>
    if book.seller != sellerId then .error "Only the seller can manually end the auction"
    else if book.listingType != .auction then .error "This is not an auction"
    else if !book.isAuctionActive then .error "Auction is already ended"
    else endAuction s bookId

/-! ### Ledger (balanceService.js) -/

/-- BalanceService.addFunds (balanceService.js lines 22-70), one
`withTransaction` unit: positive-amount check, user lookup, balance
increment, then the save of a Transaction of type deposit - a type the
Transaction schema enum rejects (and the document also lacks the then
required buyer field), so the save throws and the session aborts. -/
def addFunds (s : MarketState) (userId : Nat) (amount : Int) : Except String MarketState :=
  if amount ≤ 0 then .error "Amount must be positive"
  else
    match findBalance s userId with
    | none => .error "User not found"
    | some _ =>
      let s1 := incBalance s userId amount
      match txnSave s1 { id := 0, type := .deposit, seller := userId, amount := amount,
                         status := .completed } with
      | .error e => .error e
      | .ok (s2, _) => .ok s2

/-- BalanceService.deductFunds (balanceService.js lines 73-125): like
addFunds but with the insufficient-balance guard; the Transaction of
type withdrawal equally fails schema validation (type not in the enum,
seller missing), so the session aborts. -/
def deductFunds (s : MarketState) (userId : Nat) (amount : Int) : Except String MarketState :=
  if amount ≤ 0 then .error "Amount must be positive"
  else
    match findBalance s userId with
    | none => .error "User not found"
    | some bal =>
      if bal < amount then .error "Insufficient balance"
      else
        let s1 := incBalance s userId (-amount)
        match txnSave s1 { id := 0, type := .withdrawal, buyer := some userId, seller := userId,
                           amount := amount, status := .completed } with
        | .error e => .error e
        | .ok (s2, _) => .ok s2

/-- BalanceService.transferFunds (balanceService.js lines 128-215); the
Transaction of type transfer fails schema validation too (type not in
the enum, book missing), so the session aborts. -/
def transferFunds (s : MarketState) (fromId toId : Nat) (amount : Int) :
    Except String MarketState :=
  if amount ≤ 0 then .error "Amount must be positive"
  else if fromId == toId then .error "Cannot transfer funds to yourself"
  else
    match findBalance s fromId with
    | none => .error "Sender not found"
    | some fromBal =>
      match findBalance s toId with
      | none => .error "Recipient not found"
      | some _ =>
        if fromBal < amount then .error "Insufficient balance"
        else
          let s1 := incBalance (incBalance s fromId (-amount)) toId amount
          match txnSave s1 { id := 0, type := .transfer, buyer := some fromId, seller := toId,
                             amount := amount, status := .completed } with
          | .error e => .error e
          | .ok (s2, _) => .ok s2

/-! ### Offer engine (purchaseService.js, Offer.js) -/

/-- offerSchema.methods.hasExpired (Offer.js lines 345-347):
`new Date() > this.expiresAt`. -/
def offerExpired (o : Offer) (now : Nat) : Bool :=
  o.expiresAt < now

/-- The pre-save hook of Offer.js lines 320-342: the book must exist,
the buyer must not be the seller, and the book must accept offers. -/
def offerSaveHookOk (s : MarketState) (o : Offer) : Bool :=
  match findBook s o.book with
  | none => false
  | some book => !(book.seller == o.buyer) && book.acceptsOffers

/-- offerSchema.methods.accept (Offer.js lines 350-361) together with the
pre-save hook: re-check expiry, set status accepted.  The `save()` here
carries NO session. -/
def offerAccept (s : MarketState) (o : Offer) (now : Nat) : Except String MarketState :=
  if offerExpired o now then .error "Cannot accept expired offer"
  else if !offerSaveHookOk s o then .error "Offer validation failed"
  else .ok { s with
    offers := updateWhere (fun x => x.id == o.id) (fun x => { x with status := .accepted }) s.offers }

/-- Default offer expiry, Offer.js lines 296-302: seven days in
milliseconds. -/
def defaultOfferExpiryMs : Nat := 7 * 24 * 60 * 60 * 1000

/-- Counter-offer expiry extension, Offer.js line 385: three days. -/
def counterOfferExpiryMs : Nat := 3 * 24 * 60 * 60 * 1000

/-- PurchaseService.purchaseBook (purchaseService.js lines 22-98), one
`withTransaction` unit. -/
def purchaseBook (s : MarketState) (bookId buyerId : Nat) : Except String MarketState :=
  match findBook s bookId with
  | none => .error "Book not found"
  | some book =>
    if !book.isAvailable then .error "Book is no longer available"
    else if book.listingType == .tradeOnly then .error "This book is only available for trade"
    else if book.seller == buyerId then .error "Cannot purchase your own book"
    else
      match findBalance s buyerId with
      | none => .error "Buyer not found"
      | some bal =>
        if bal < book.fixedPrice then .error "Insufficient balance"
        else
          match createFixedPriceTxn s buyerId book with
          | .error e => .error e
          | .ok (s1, txnId) =>
            let s2 := txnComplete s1 txnId (some buyerId)
            .ok (updateBook s2 bookId fun b =>
                  { b with isAvailable := false, soldTo := some buyerId })

/-- PurchaseService.makeOffer (purchaseService.js lines 101-172): note
the existing-offer guard (lines 136-144) filters on status pending ONLY.
The final `amount < 0` guard is the Offer schema `min: 0` validator at
`offer.save`. -/
def makeOffer (s : MarketState) (bookId buyerId : Nat) (amount : Int) (now : Nat) :
    Except String MarketState :=
  match findBook s bookId with
  | none => .error "Book not found"
  | some book =>
    if !book.isAvailable then .error "Book is no longer available"
    else if book.listingType != .fixedPrice then .error "Offers can only be made on fixed-price books"
    else if !book.acceptsOffers then .error "This book does not accept offers"
    else if book.seller == buyerId then .error "Cannot make offer on your own book"
    else
      match findBalance s buyerId with
      | none => .error "Buyer not found"
      | some bal =>
        if bal < amount then .error "Insufficient balance for this offer"
        else if (s.offers.find? fun o =>
                  o.book == bookId && o.buyer == buyerId && o.status == .pending).isSome then
          .error "You already have a pending offer on this book"
        else if amount < 0 then .error "Offer validation failed"
        else
          .ok { s with
            nextId := s.nextId + 1,
            offers := s.offers ++ [{ id := s.nextId, book := bookId, buyer := buyerId,
                                     amount := amount, expiresAt := now + defaultOfferExpiryMs }] }

/-- PurchaseService.acceptOffer (purchaseService.js lines 175-269), the
success path applied in source order: validations, `offer.accept`,
createOfferTransaction + complete, `book.save`, then the updateMany that
rejects the other offers on the book whose status is pending ONLY
(lines 227-239 filter on status pending, not counter-offered). -/
def acceptOffer (s : MarketState) (offerId sellerId : Nat) (now : Nat) :
    Except String MarketState :=
  match findOffer s offerId with
  | none => .error "Offer not found"
  | some offer =>
    if offer.status != .pending then .error "Offer is no longer pending"
    else if offerExpired offer now then .error "Offer has expired"
    else
      match findBook s offer.book with
      | none => .error "Book not found"
      | some book =>
        if book.seller != sellerId then .error "Only the seller can accept this offer"
        else if !book.isAvailable then .error "Book is no longer available"
        else
          match findBalance s offer.buyer with
          | none => .error "Buyer not found"
          | some buyerBal =>
            if buyerBal < offer.amount then .error "Buyer no longer has sufficient balance"
            else
              match offerAccept s offer now with
              | .error e => .error e
              | .ok s1 =>
                match createOfferTxn s1 offer book with
                | .error e => .error e
                | .ok (s2, txnId) =>
                  let s3 := txnComplete s2 txnId (some offer.buyer)
                  let s4 := updateBook s3 book.id fun b =>
                    { b with isAvailable := false, soldTo := some offer.buyer }
                  let rejected := updateWhere
                    (fun o => o.book == book.id && o.id != offer.id && o.status == .pending)
                    (fun o => { o with status := .rejected }) s4.offers
                  .ok { s4 with offers := rejected }

/-- PurchaseService.counterOffer (purchaseService.js lines 309-353)
followed by offerSchema.methods.counterOffer (Offer.js lines 374-387):
status to counter-offered, record the counter amount, extend expiry. -/
def counterOffer (s : MarketState) (offerId sellerId : Nat) (counterAmount : Int) (now : Nat) :
    Except String MarketState :=
  match findOffer s offerId with
  | none => .error "Offer not found"
  | some offer =>
    if offer.status != .pending then .error "Offer is no longer pending"
    else
      match findBook s offer.book with
      | none => .error "Book not found"
      | some book =>
        if book.seller != sellerId then .error "Only the seller can counter this offer"
        else if counterAmount ≤ 0 then .error "Counter offer amount must be positive"
        else if book.fixedPrice ≤ counterAmount then .error "Counter offer should be less than the fixed price"
        else if offerExpired offer now then .error "Cannot counter expired offer"
        else if !offerSaveHookOk s offer then .error "Offer validation failed"
        else
          let asCounter : Offer → Offer := fun x =>
            { x with status := .counterOffered, counterOfferAmount := some counterAmount,
                     expiresAt := now + counterOfferExpiryMs }
          let countered := updateWhere (fun x => x.id == offer.id) asCounter s.offers
          .ok { s with offers := countered }

/-- PurchaseService.acceptCounterOffer (purchaseService.js lines
356-441): validations, amount replaced by the counter amount, accept,
createOfferTransaction + complete, book sold, then the updateMany that
here DOES reject both pending and counter-offered other offers
(lines 408-420). -/
def acceptCounterOffer (s : MarketState) (offerId buyerId : Nat) (now : Nat) :
    Except String MarketState :=
  match findOffer s offerId with
  | none => .error "Offer not found"
  | some offer =>
    if offer.status != .counterOffered then .error "No counter offer to accept"
    else if offer.buyer != buyerId then .error "Only the original buyer can accept the counter offer"
    else if offerExpired offer now then .error "Counter offer has expired"
    else
      match findBook s offer.book with
      | none => .error "Book not found"
      | some book =>
        if !book.isAvailable then .error "Book is no longer available"
        else
          match findBalance s buyerId with
          | none => .error "Buyer not found"
          | some buyerBal =>
            let counterAmt := offer.counterOfferAmount.getD 0
            if buyerBal < counterAmt then .error "Insufficient balance for counter offer amount"
            else
              let offer1 := { offer with amount := counterAmt }
              let amended := updateWhere (fun x => x.id == offer.id)
                (fun x => { x with amount := counterAmt }) s.offers
              let s0 := { s with offers := amended }
              match offerAccept s0 offer1 now with
              | .error e => .error e
              | .ok s1 =>
                match createOfferTxn s1 offer1 book with
                | .error e => .error e
                | .ok (s2, txnId) =>
                  let s3 := txnComplete s2 txnId (some buyerId)
                  let s4 := updateBook s3 book.id fun b =>
                    { b with isAvailable := false, soldTo := some buyerId }
                  let rejected := updateWhere
                    (fun o => o.book == book.id && o.id != offer.id
                        && (o.status == .pending || o.status == .counterOffered))
                    (fun o => { o with status := .rejected }) s4.offers
                  .ok { s4 with offers := rejected }

/-! ### Trade engine (tradeService.js, Trade.js) -/

/-- The book-set check shared by the Trade pre-save hook (Trade.js lines
69-99) and proposeTrade (tradeService.js lines 339-358): every id must
name a book owned by `owner` that is available. -/
def booksOwnedAvailable (s : MarketState) (owner : Nat) (ids : List Nat) : Bool :=
  ids.all fun id =>
    match findBook s id with
    | none => false
    | some b => b.seller == owner && b.isAvailable

/-- tradeSchema pre-save validation (Trade.js lines 61-99): distinct
parties and both book sets owned and available. -/
def tradeSaveHookOk (s : MarketState) (t : Trade) : Bool :=
  !(t.proposer == t.recipient)
    && booksOwnedAvailable s t.proposer t.proposerBooks
    && booksOwnedAvailable s t.recipient t.recipientBooks

/-- TradeService.proposeTrade (tradeService.js part lines 318-409):
validations in source order, then the save (whose hook re-runs the
ownership checks). -/
def proposeTrade (s : MarketState) (proposerId recipientId : Nat)
    (proposerBookIds recipientBookIds : List Nat) : Except String MarketState :=
  if proposerId == recipientId then .error "Cannot propose trade with yourself"
  else
    match findBalance s proposerId with
    | none => .error "Proposer not found"
    | some _ =>
      match findBalance s recipientId with
      | none => .error "Recipient not found"
      | some _ =>
        if !booksOwnedAvailable s proposerId proposerBookIds then
          .error "Some of your books are not available or do not belong to you"
        else if !booksOwnedAvailable s recipientId recipientBookIds then
          .error "Some of the requested books are not available or do not belong to the recipient"
        else if (proposerBookIds.filter fun id =>
                  match findBook s id with
                  | some b => b.listingType == .auction && b.isAuctionActive
                  | none => false) != [] then
          .error "Cannot trade books that are currently in active auctions"
        else if (recipientBookIds.filter fun id =>
                  match findBook s id with
                  | some b => b.listingType == .auction && b.isAuctionActive
                  | none => false) != [] then
          .error "Cannot request books that are currently in active auctions"
        else
          .ok { s with
            nextId := s.nextId + 1,
            trades := s.trades ++ [{ id := s.nextId, proposer := proposerId,
                                     recipient := recipientId,
                                     proposerBooks := proposerBookIds,
                                     recipientBooks := recipientBookIds }] }

/-- The validation phase of TradeService.acceptTrade (part_007 lines
416-447): all reads, no writes.  The populate of a missing book makes
the availability filter throw on null, hence the missing-book error. -/
def acceptTradeValidate (s : MarketState) (tradeId recipientId : Nat) : Except String Trade :=
  match findTrade s tradeId with
  | none => .error "Trade proposal not found"
  | some trade =>
    if trade.status != .pending then .error "Trade proposal is no longer pending"
    else if trade.recipient != recipientId then .error "Only the recipient can accept this trade"
    else if !((trade.proposerBooks ++ trade.recipientBooks).all fun id => (findBook s id).isSome) then
      .error "Trade references a missing book"
    else if !(trade.proposerBooks.all fun id => ((findBook s id).map (·.isAvailable)).getD false) then
      .error "Some of the proposer books are no longer available"
    else if !(trade.recipientBooks.all fun id => ((findBook s id).map (·.isAvailable)).getD false) then
      .error "Some of your books are no longer available"
    else .ok trade

/-- tradeSchema.methods.accept (Trade.js lines 102-109): a save - with
its pre-save hook - carrying NO session; it commits on its own. -/
def tradeAcceptStep (s : MarketState) (t : Trade) : Except String MarketState :=
  if !tradeSaveHookOk s t then .error "Trade validation failed"
  else
    let accepted := updateWhere (fun x => x.id == t.id)
      (fun x => { x with status := .accepted }) s.trades
    .ok { s with trades := accepted }

/-- tradeSchema.methods.complete (Trade.js lines 122-162): its own
`withTransaction` unit - proposer books to the recipient, recipient
books to the proposer, all unavailable, status completed.  The pre-save
hook of the final save reads the store outside this session, that is
the state at entry. -/
def tradeCompleteStep (s : MarketState) (t : Trade) : Except String MarketState :=
  if !tradeSaveHookOk s { t with status := .completed } then .error "Trade validation failed"
  else
    let toRecipient := updateWhere (fun b => t.proposerBooks.contains b.id)
      (fun b => { b with seller := t.recipient, isAvailable := false, soldTo := some t.recipient })
      s.books
    let toProposer := updateWhere (fun b => t.recipientBooks.contains b.id)
      (fun b => { b with seller := t.proposer, isAvailable := false, soldTo := some t.proposer })
      toRecipient
    let done := updateWhere (fun x => x.id == t.id)
      (fun x => { x with status := .completed }) s.trades
    .ok { s with books := toProposer, trades := done }

/-- TradeService.acceptTrade (part_007 lines 412-485), the failure-free
execution: validate, accept, complete, audit transaction, complete it.
Every write here commits outside the ambient session (the accept save,
the complete sub-transaction and both transaction steps each carry
their own durability), which acceptTradeFaultedAtComplete below makes
observable. -/
def acceptTrade (s : MarketState) (tradeId recipientId : Nat) : Except String MarketState :=
  match acceptTradeValidate s tradeId recipientId with
  | .error e => .error e
  | .ok trade =>
    match tradeAcceptStep s trade with
    | .error e => .error e
    | .ok s1 =>
      match tradeCompleteStep s1 trade with
      | .error e => .error e
      | .ok s2 =>
        match createTradeTxn s2 trade with
        | .error e => .error e
        | .ok (s3, txnId) => .ok (txnComplete s3 txnId none)

/-- An acceptTrade execution in which `trade.complete()` (part_007 line
453) raises after `trade.accept()` (line 450) already committed: the
accept ran `this.save()` with no session (Trade.js line 108), so the
abort of the outer `withTransaction` cannot undo it.  The value is the
durable store after the failed call. -/
def acceptTradeFaultedAtComplete (s : MarketState) (tradeId recipientId : Nat) : MarketState :=
  match acceptTradeValidate s tradeId recipientId with
  | .error _ => s
  | .ok trade =>
    match tradeAcceptStep s trade with
    | .error _ => s
    | .ok s1 => s1

/-! ### Event ordering (claim C9): the order of writes, notifications
and the transaction commit inside one service call, read off the source
statement order.  `withTransaction` commits when its callback returns,
so the commit is the final action of a transactional method. -/

/-- One primitive action of a service call, in program order. -/
inductive TraceAction
  | dbWrite (desc : String)
  | emitEvent (channel event : String)
  | txCommit
deriving DecidableEq, Repr

/-- Action is a notification emit. -/
def TraceAction.isEmit : TraceAction → Bool
  | .emitEvent _ _ => true
  | _ => false

/-- Action is a durable commit point. -/
def TraceAction.isCommit : TraceAction → Bool
  | .txCommit => true
  | _ => false

/-- Action is a store write. -/
def TraceAction.isWrite : TraceAction → Bool
  | .dbWrite _ => true
  | _ => false

/-- Statement order of the placeBid success path (auctionService.js
lines 84-144): four session writes, the bid_update emit (line 114), the
outbid emit when a previous bid exists (line 134), and then - only when
the callback returns - the commit of `withTransaction`. -/
def placeBidActions (hasPreviousBid : Bool) : List TraceAction :=
  [.dbWrite "bid.save", .dbWrite "book.currentBid", .dbWrite "bids.clearWinning",
   .dbWrite "bid.save.winning", .emitEvent "auction_book" "bid_update"]
    ++ (if hasPreviousBid then [.emitEvent "user_previousBidder" "outbid_notification"] else [])
    ++ [.txCommit]

/-- Statement order of the makeOffer success path (purchaseService.js
lines 147-166): a single-document save (durable at the save itself,
there is no multi-document session here), then the seller notification. -/
def makeOfferActions : List TraceAction :=
  [.dbWrite "offer.save", .txCommit, .emitEvent "user_seller" "offer_received"]

/-- Statement order of the acceptOffer success path (purchaseService.js
lines 213-258): writes, then both emits, then the commit of the
surrounding `withTransaction`. -/
def acceptOfferActions : List TraceAction :=
  [.dbWrite "offer.accept", .dbWrite "transaction.create", .dbWrite "transaction.complete",
   .dbWrite "book.save", .dbWrite "offers.rejectOthers",
   .emitEvent "user_buyer" "offer_accepted", .emitEvent "user_seller" "offer_accepted_seller",
   .txCommit]

/-- Statement order of the rejectOffer success path (purchaseService.js
lines 272-306): the sessionless `offer.reject()` save (line 291) is the
durable point, then the buyer notification (line 294). -/
def rejectOfferActions : List TraceAction :=
  [.dbWrite "offer.reject", .txCommit, .emitEvent "user_buyer" "offer_rejected"]

/-- Statement order of the counterOffer success path (purchaseService.js
lines 309-353): the sessionless `offer.counterOffer()` save (line 336),
then the buyer notification (line 339). -/
def counterOfferActions : List TraceAction :=
  [.dbWrite "offer.counterOffer", .txCommit, .emitEvent "user_buyer" "counter_offer_received"]

/-- Statement order of the proposeTrade success path (tradeService lines
318-409): the sessionless `trade.save()` (line 385), then the recipient
notification (line 396). -/
def proposeTradeActions : List TraceAction :=
  [.dbWrite "trade.save", .txCommit, .emitEvent "user_recipient" "trade_proposal_received"]

/-- Statement order of the rejectTrade success path (tradeService lines
488-524): the sessionless `trade.reject()` save (line 509), then the
proposer notification (line 512). -/
def rejectTradeActions : List TraceAction :=
  [.dbWrite "trade.reject", .txCommit, .emitEvent "user_proposer" "trade_rejected"]

/-- Statement order of the cancelTrade success path (tradeService lines
527-563): the sessionless `trade.save()` (line 549), then the recipient
notification (line 552). -/
def cancelTradeActions : List TraceAction :=
  [.dbWrite "trade.save", .txCommit, .emitEvent "user_recipient" "trade_cancelled"]

/-- Statement order of the addFunds callback (balanceService.js lines
26-66): user save (line 38), transaction save (line 49), the
balance_updated emit (line 52), then the commit of `withTransaction`.
(Every real run aborts at the transaction save - see claim C1 - but the
statement order still places the emit inside the callback, before the
commit.) -/
def addFundsActions : List TraceAction :=
  [.dbWrite "user.save", .dbWrite "transaction.save",
   .emitEvent "user" "balance_updated", .txCommit]

/-- Statement order of the deductFunds callback (balanceService.js lines
77-121): user save (line 93), transaction save (line 104), the
balance_updated emit (line 107), then the commit. -/
def deductFundsActions : List TraceAction :=
  [.dbWrite "user.save", .dbWrite "transaction.save",
   .emitEvent "user" "balance_updated", .txCommit]

/-- Statement order of the transferFunds callback (balanceService.js
lines 132-215): both user saves (lines 166-167), the transaction save
(line 180), both balance_updated emits (lines 183, 191), then the
commit. -/
def transferFundsActions : List TraceAction :=
  [.dbWrite "fromUser.save", .dbWrite "toUser.save", .dbWrite "transaction.save",
   .emitEvent "user_from" "balance_updated", .emitEvent "user_to" "balance_updated", .txCommit]

/-- Statement order of the purchaseBook callback (purchaseService.js
lines 26-95): transaction create (line 60) and complete (line 61), book
save (line 67), the two emits (lines 70, 81), then the commit. -/
def purchaseBookActions : List TraceAction :=
  [.dbWrite "transaction.create", .dbWrite "transaction.complete", .dbWrite "book.save",
   .emitEvent "user_seller" "book_sold", .emitEvent "user_buyer" "book_purchased", .txCommit]

/-- Statement order of the acceptCounterOffer callback
(purchaseService.js lines 360-438): accept (line 395), transaction
create and complete (lines 398-399), book save (line 405), the
updateMany rejecting the other offers (line 408), the single seller
emit (line 423), then the commit. -/
def acceptCounterOfferActions : List TraceAction :=
  [.dbWrite "offer.accept", .dbWrite "transaction.create", .dbWrite "transaction.complete",
   .dbWrite "book.save", .dbWrite "offers.rejectOthers",
   .emitEvent "user_seller" "counter_offer_accepted", .txCommit]

/-- Statement order of the endAuction callback (auctionService.js lines
155-228): book save (line 176); with a winning bid, transaction create
and complete (lines 180-183) and the three emits (lines 186, 197, 205);
with no bid, the two emits (lines 213, 221); then the commit. -/
def endAuctionActions (hasWinner : Bool) : List TraceAction :=
  [.dbWrite "book.save"]
    ++ (if hasWinner then
          [.dbWrite "transaction.create", .dbWrite "transaction.complete",
           .emitEvent "auction_book" "auction_ended", .emitEvent "user_winner" "auction_won",
           .emitEvent "user_seller" "auction_sold"]
        else
          [.emitEvent "auction_book" "auction_ended", .emitEvent "user_seller" "auction_no_bids"])
    ++ [.txCommit]

/-- Statement order of the acceptTrade callback (tradeService lines
416-481): trade accept (line 450), trade complete (line 453),
transaction create and complete (lines 456-457), the two emits (lines
460, 469), then the commit of the outer `withTransaction` (each write
also carries its own durability - claim C8 - but in statement order
every emit still precedes the outer commit). -/
def acceptTradeActions : List TraceAction :=
  [.dbWrite "trade.accept", .dbWrite "trade.complete", .dbWrite "transaction.create",
   .dbWrite "transaction.complete",
   .emitEvent "user_proposer" "trade_accepted", .emitEvent "user_recipient" "trade_completed",
   .txCommit]

/-- Every notification of the trace is emitted only after a commit
action has occurred (the property claim C9 asserts of every operation). -/
def commitPrecedesEmits (tr : List TraceAction) : Bool :=
  !((tr.takeWhile fun a => !a.isCommit).any (·.isEmit))

/-- Every store write of the trace precedes every notification. -/
def writesPrecedeEmits (tr : List TraceAction) : Bool :=
  !((tr.dropWhile fun a => !a.isEmit).any (·.isWrite))

/-! ### Store invariants used as hypotheses (all true of a real Mongo
store: `_id` values are unique and fresh ids come from the counter) -/

/-- Every user balance is nonnegative. -/
def balancesOk (s : MarketState) : Bool :=
  s.users.all fun q => 0 ≤ q.2

/-- The id the counter would assign next is unused in the Transaction
collection. -/
def txnIdFresh (s : MarketState) : Bool :=
  s.txns.all fun t => t.id != s.nextId

/-! ### Generic lemmas about the store primitives -/

theorem find?_updateWhere (p f) (q : α → Bool) (hq : ∀ a, q (f a) = q a) (l : List α) :
    (updateWhere p f l).find? q = (l.find? q).map fun a => if p a then f a else a := by
  induction l with
  | nil => simp [updateWhere]
  | cons a l ih =>
    by_cases hpa : p a
    · by_cases hqa : q a
      · simp [updateWhere, List.find?_cons, hpa, hqa, hq]
      · simpa [updateWhere, List.find?_cons, hpa, hqa, hq] using ih
    · by_cases hqa : q a
      · simp [updateWhere, List.find?_cons, hpa, hqa]
      · simpa [updateWhere, List.find?_cons, hpa, hqa] using ih

theorem find?_updateWhere_self (p f) (hp : ∀ a, p (f a) = p a) (l : List α) :
    (updateWhere p f l).find? p = (l.find? p).map f := by
  rw [find?_updateWhere p f p hp l]
  cases hfind : l.find? p with
  | none => rfl
  | some a => simp [List.find?_some hfind]

theorem mem_updateWhere_of_mem (p : α → Bool) (f) {l : List α} {a : α} (ha : a ∈ l) :
    (if p a then f a else a) ∈ updateWhere p f l :=
  List.mem_map_of_mem _ ha

theorem mem_updateWhere_iff (p : α → Bool) (f) {l : List α} {b : α} :
    b ∈ updateWhere p f l ↔ ∃ a ∈ l, (if p a then f a else a) = b := by
  simp [updateWhere, List.mem_map]

theorem countP_updateWhere_zero (p f) (q : α → Bool) {l : List α}
    (h : ∀ a ∈ l, q (if p a then f a else a) = false) :
    (updateWhere p f l).countP q = 0 := by
  rw [List.countP_eq_zero]
  intro b hb
  rcases (mem_updateWhere_iff p f).mp hb with ⟨a, ha, rfl⟩
  simp [h a ha]

theorem filter_updateWhere_untouched (p f) (q : α → Bool) {l : List α}
    (h : ∀ a ∈ l, p a = true → q a = false ∧ q (f a) = false) :
    (updateWhere p f l).filter q = l.filter q := by
  induction l with
  | nil => rfl
  | cons a l ih =>
    have hrest : ∀ a ∈ l, p a = true → q a = false ∧ q (f a) = false := by
      intro x hx hpx
      exact h x (List.mem_cons_of_mem a hx) hpx
    have ht := ih hrest
    simp only [updateWhere] at ht ⊢
    by_cases hpa : p a
    · rcases h a (List.mem_cons_self a l) hpa with ⟨hqa, hqfa⟩
      simp [List.filter_cons, hpa, hqa, hqfa, ht]
    · by_cases hqa : q a
      · simp [List.filter_cons, hpa, hqa, ht]
      · simp [List.filter_cons, hpa, hqa, ht]

theorem find?_key_of_mem_nodup {l : List (Nat × Int)} (hnd : (l.map Prod.fst).Nodup)
    {q : Nat × Int} (hm : q ∈ l) : (l.find? fun x => x.1 == q.1) = some q := by
  induction l with
  | nil => cases hm
  | cons a l ih =>
    simp only [List.map_cons] at hnd
    have hnd' := List.nodup_cons.mp hnd
    rcases List.mem_cons.mp hm with rfl | hml
    · simp
    · have hne : (a.1 == q.1) = false := by
        simp only [beq_eq_false_iff_ne, ne_eq]
        intro he
        exact hnd'.1 (he ▸ List.mem_map_of_mem Prod.fst hml)
      rw [List.find?_cons_of_neg _ (by simp [hne])]
      exact ih hnd'.2 hml

theorem findBalance_of_mem_nodup {s : MarketState} (hnd : (s.users.map Prod.fst).Nodup)
    {q : Nat × Int} (hm : q ∈ s.users) : findBalance s q.1 = some q.2 := by
  unfold findBalance
  rw [find?_key_of_mem_nodup hnd hm]
  rfl

/-! ### Field-projection simp lemmas -/

@[simp] theorem users_updateBook (s : MarketState) (id f) : (updateBook s id f).users = s.users := rfl
@[simp] theorem bids_updateBook (s : MarketState) (id f) : (updateBook s id f).bids = s.bids := rfl
@[simp] theorem offers_updateBook (s : MarketState) (id f) : (updateBook s id f).offers = s.offers := rfl
@[simp] theorem txns_updateBook (s : MarketState) (id f) : (updateBook s id f).txns = s.txns := rfl
@[simp] theorem trades_updateBook (s : MarketState) (id f) : (updateBook s id f).trades = s.trades := rfl
@[simp] theorem nextId_updateBook (s : MarketState) (id f) : (updateBook s id f).nextId = s.nextId := rfl

@[simp] theorem books_incBalance (s : MarketState) (u d) : (incBalance s u d).books = s.books := rfl
@[simp] theorem bids_incBalance (s : MarketState) (u d) : (incBalance s u d).bids = s.bids := rfl
@[simp] theorem offers_incBalance (s : MarketState) (u d) : (incBalance s u d).offers = s.offers := rfl
@[simp] theorem txns_incBalance (s : MarketState) (u d) : (incBalance s u d).txns = s.txns := rfl
@[simp] theorem nextId_incBalance (s : MarketState) (u d) : (incBalance s u d).nextId = s.nextId := rfl

theorem findBook_congr_books (s s' : MarketState) (h : s.books = s'.books) (id : Nat) :
    findBook s id = findBook s' id := by
  unfold findBook
  rw [h]

theorem findBook_updateBook_self (s : MarketState) (id : Nat) (f : Book → Book)
    (hf : ∀ b, (f b).id = b.id) :
    findBook (updateBook s id f) id = (findBook s id).map f := by
  unfold findBook updateBook
  exact find?_updateWhere_self _ f (fun b => by simp [hf b]) s.books

theorem findBook_updateBook_other (s : MarketState) (id id' : Nat) (f : Book → Book)
    (hf : ∀ b, (f b).id = b.id) (hne : id' ≠ id) :
    findBook (updateBook s id f) id' = findBook s id' := by
  unfold findBook updateBook
  rw [find?_updateWhere _ f _ (fun b => by simp [hf b]) s.books]
  cases hfind : s.books.find? fun b => b.id == id' with
  | none => rfl
  | some b =>
    have hbid : b.id = id' := by simpa using List.find?_some hfind
    have hnotid : (b.id == id) = false := by
      simp only [beq_eq_false_iff_ne, ne_eq, hbid]
      exact hne
    show some (if b.id == id then f b else b) = some b
    rw [hnotid]
    rfl

/-! ### Concrete stores used by the counterexamples and witnesses -/

/-- Baseline store for claim C1: seller 1 runs an auction on book 10
(current bid 10, ends at 100), seller 3 sells book 11 at fixed price 20,
bidder 2 holds balance 20.  All balances are nonnegative. -/
def c1Init : MarketState :=
  { users := [(1, 0), (2, 20), (3, 0)],
    books := [
      { id := 10, seller := 1, listingType := .auction, startingBid := 10, currentBid := 10,
        auctionEndTime := 100, isAuctionActive := true },
      { id := 11, seller := 3, listingType := .fixedPrice, fixedPrice := 20 }],
    bids := [], offers := [], trades := [], txns := [], nextId := 100 }

/-- The run refuting claim C1: bidder 2 bids 20 (balance check passes),
then spends the same 20 on a fixed-price purchase, then the auction is
settled by the sweep's endAuction, which debits without re-checking. -/
def c1Run : Except String MarketState :=
  (placeBid c1Init 10 2 20 50).bind fun s1 =>
    (purchaseBook s1 11 2).bind fun s2 =>
      endAuction s2 10

/-- Baseline store for claim C4: two expired active auctions, ids 1
and 2, both past their end time at instant 50. -/
def c4Init : MarketState :=
  { users := [(5, 0)],
    books := [
      { id := 1, seller := 5, listingType := .auction, isAuctionActive := true, auctionEndTime := 10 },
      { id := 2, seller := 5, listingType := .auction, isAuctionActive := true, auctionEndTime := 10 }],
    bids := [], offers := [], trades := [], txns := [], nextId := 0 }

/-- Baseline store for claims C5 and C6: seller 1 lists book 20 at fixed
price 50, accepting offers; buyers 2 and 3 are funded. -/
def c56Init : MarketState :=
  { users := [(1, 0), (2, 100), (3, 100)],
    books := [
      { id := 20, seller := 1, listingType := .fixedPrice, fixedPrice := 50,
        acceptsOffers := true }],
    bids := [], offers := [], trades := [], txns := [], nextId := 30 }

/-- For claim C5: buyer 2 offers 25 (offer id 30), buyer 3 offers 20
(offer id 31), the seller counters buyer 3 at 35 (offer 31 becomes
counter-offered), and then the seller accepts offer 30. -/
def c5Run : Except String MarketState :=
  (makeOffer c56Init 20 2 25 0).bind fun s1 =>
    (makeOffer s1 20 3 20 0).bind fun s2 =>
      (counterOffer s2 31 1 35 0).bind fun s3 =>
        acceptOffer s3 30 1 0

/-- For claim C6: buyer 2 offers 30, the seller counters at 40 (the
offer leaves the pending status), and buyer 2 then files a second offer
on the same book. -/
def c6Run : Except String MarketState :=
  (makeOffer c56Init 20 2 30 0).bind fun s1 =>
    (counterOffer s1 30 1 40 0).bind fun s2 =>
      makeOffer s2 20 2 35 1

/-- Baseline store for claim C8: a pending trade 50 of book 40
(owner 1) against book 41 (owner 2). -/
def c8Init : MarketState :=
  { users := [(1, 0), (2, 0)],
    books := [
      { id := 40, seller := 1, listingType := .tradeOnly },
      { id := 41, seller := 2, listingType := .tradeOnly }],
    bids := [], offers := [],
    trades := [{ id := 50, proposer := 1, recipient := 2,
                 proposerBooks := [40], recipientBooks := [41] }],
    txns := [], nextId := 60 }

/-- Claim C1, counterexample: starting from the all-nonnegative store
c1Init, the listed operations (placeBid, purchaseBook, then the sweep's
endAuction) drive bidder 2 to balance -20, because the settlement in
Transaction.complete (Transaction.js lines 119-132) increments balances
without any sufficient-funds re-check. -/
theorem c1_negative_balance_counterexample :
    balancesOk c1Init = true
    ∧ (match c1Run with
       | .ok s => findBalance s 2
       | .error _ => none) = some (-20) := by
  constructor
  · decide
  · decide

/-- Claim C4, counterexample: at instant 50 the sweep batch is [1, 2];
when closing auction 1 fails, auction 2 - although expired and in the
same batch - is NOT processed in that tick, because the try/catch of
processEndedAuctions (auctionService.js lines 25-37) wraps the whole
loop rather than the body of one iteration. -/
theorem c4_batch_abort_counterexample :
    expiredActiveAuctionIds c4Init 50 = [1, 2]
    ∧ ((findBook (processEndedAuctions [1] c4Init 50) 2).map (·.isAuctionActive)) = some true
    ∧ ((findBook (processEndedAuctions [] c4Init 50) 2).map (·.isAuctionActive)) = some false := by
  refine ⟨by decide, by decide, by decide⟩

/-- Claim C5, counterexample: accepting the pending offer 30 leaves the
counter-offered offer 31 on the same listing untouched (still
counter-offered, not rejected), because the updateMany of acceptOffer
(purchaseService.js lines 227-239) filters on status pending only. -/
theorem c5_countered_survives_counterexample :
    (match c5Run with
     | .ok s => (findOffer s 31).map (·.status)
     | .error _ => none) = some .counterOffered := by
  decide

/-- Claim C6, counterexample: after the seller counters buyer 2's offer,
makeOffer accepts a second offer from the same buyer on the same
listing - the guard of makeOffer (purchaseService.js lines 136-144)
checks for an existing offer with status pending only - so the store
reaches a state with two live (pending-or-countered) offers for one
(listing, buyer) pair. -/
theorem c6_duplicate_offer_counterexample :
    (match c6Run with
     | .ok s => some ((s.offers.filter fun o =>
         o.book == 20 && o.buyer == 2
           && (o.status == .pending || o.status == .counterOffered)).length)
     | .error _ => none) = some 2 := by
  decide

/-- Claim C8: evaluation of the failing input.  In the execution of
acceptTrade on the pending trade 50 in which trade.complete (part_007
line 453) raises after trade.accept (line 450), the durable store
afterwards differs from the store before the call: the trade is stuck
in status accepted (a later retry is rejected as no longer pending),
while no book changed hands and no transaction record exists. -/
theorem c8_partial_commit_evaluation :
    acceptTradeFaultedAtComplete c8Init 50 2 ≠ c8Init
    ∧ ((findTrade (acceptTradeFaultedAtComplete c8Init 50 2) 50).map (·.status))
        = some .accepted
    ∧ ((findBook (acceptTradeFaultedAtComplete c8Init 50 2) 40).map (·.seller)) = some 1
    ∧ ((findBook (acceptTradeFaultedAtComplete c8Init 50 2) 41).map (·.seller)) = some 2
    ∧ (acceptTradeFaultedAtComplete c8Init 50 2).txns = []
    ∧ (match acceptTrade (acceptTradeFaultedAtComplete c8Init 50 2) 50 2 with
       | .error e => e
       | .ok _ => "") = "Trade proposal is no longer pending"
    ∧ (match acceptTrade c8Init 50 2 with
       | .ok _ => true
       | .error _ => false) = true := by
  refine ⟨by decide, by decide, by decide, by decide, by decide, by decide, by decide⟩

/-- Claim C9, counterexample: in the placeBid success path (with or
without a previous bidder to notify) and in the acceptOffer success
path, notifications are emitted INSIDE the `withTransaction` callback,
before the transaction commit that makes the state durable - the exact
opposite order of the claim. -/
theorem c9_emit_before_commit_counterexample :
    commitPrecedesEmits (placeBidActions true) = false
    ∧ commitPrecedesEmits (placeBidActions false) = false
    ∧ commitPrecedesEmits acceptOfferActions = false := by
  refine ⟨by decide, by decide, by decide⟩

/-- Claim C9, amended: the six operations that run no multi-document
session (makeOffer, rejectOffer, counterOffer, proposeTrade,
rejectTrade, cancelTrade) emit their notification only after the
durable save; every withTransaction operation (addFunds, deductFunds,
transferFunds, placeBid in both its variants, purchaseBook,
acceptOffer, acceptCounterOffer, endAuction in both its variants,
acceptTrade) emits after all the session writes of its callback but
BEFORE the final commit - the commit is the last action, so every one
of these traces has an emit ahead of the commit point. -/
theorem c9_event_order_amended :
    commitPrecedesEmits makeOfferActions = true
    ∧ commitPrecedesEmits rejectOfferActions = true
    ∧ commitPrecedesEmits counterOfferActions = true
    ∧ commitPrecedesEmits proposeTradeActions = true
    ∧ commitPrecedesEmits rejectTradeActions = true
    ∧ commitPrecedesEmits cancelTradeActions = true
    ∧ writesPrecedeEmits addFundsActions = true
    ∧ addFundsActions.getLast? = some .txCommit
    ∧ commitPrecedesEmits addFundsActions = false
    ∧ writesPrecedeEmits deductFundsActions = true
    ∧ deductFundsActions.getLast? = some .txCommit
    ∧ commitPrecedesEmits deductFundsActions = false
    ∧ writesPrecedeEmits transferFundsActions = true
    ∧ transferFundsActions.getLast? = some .txCommit
    ∧ commitPrecedesEmits transferFundsActions = false
    ∧ writesPrecedeEmits (placeBidActions true) = true
    ∧ (placeBidActions true).getLast? = some .txCommit
    ∧ commitPrecedesEmits (placeBidActions true) = false
    ∧ writesPrecedeEmits (placeBidActions false) = true
    ∧ (placeBidActions false).getLast? = some .txCommit
    ∧ commitPrecedesEmits (placeBidActions false) = false
    ∧ writesPrecedeEmits purchaseBookActions = true
    ∧ purchaseBookActions.getLast? = some .txCommit
    ∧ commitPrecedesEmits purchaseBookActions = false
    ∧ writesPrecedeEmits acceptOfferActions = true
    ∧ acceptOfferActions.getLast? = some .txCommit
    ∧ commitPrecedesEmits acceptOfferActions = false
    ∧ writesPrecedeEmits acceptCounterOfferActions = true
    ∧ acceptCounterOfferActions.getLast? = some .txCommit
    ∧ commitPrecedesEmits acceptCounterOfferActions = false
    ∧ writesPrecedeEmits (endAuctionActions true) = true
    ∧ (endAuctionActions true).getLast? = some .txCommit
    ∧ commitPrecedesEmits (endAuctionActions true) = false
    ∧ writesPrecedeEmits (endAuctionActions false) = true
    ∧ (endAuctionActions false).getLast? = some .txCommit
    ∧ commitPrecedesEmits (endAuctionActions false) = false
    ∧ writesPrecedeEmits acceptTradeActions = true
    ∧ acceptTradeActions.getLast? = some .txCommit
    ∧ commitPrecedesEmits acceptTradeActions = false := by
  decide

/-- Claim C2: given that the listing and the bidder exist (and the
schema invariant that the stored current bid is nonnegative), placeBid
succeeds exactly when the listing is an active, not yet ended auction,
the bidder is not the owner, the amount strictly exceeds the current
bid and the bidder balance covers the amount; on success the stored
book is the old one with currentBid = amount, strictly above the
previous current bid. -/
theorem c2_placeBid_spec (s : MarketState) (bookId bidderId : Nat) (amount : Int) (now : Nat)
    (book : Book) (hb : findBook s bookId = some book)
    (bal : Int) (hu : findBalance s bidderId = some bal)
    (hcb : 0 ≤ book.currentBid) :
    ((∃ s1, placeBid s bookId bidderId amount now = .ok s1) ↔
      (book.listingType = .auction ∧ book.isAuctionActive = true
        ∧ hasAuctionEnded book now = false ∧ book.seller ≠ bidderId
        ∧ book.currentBid < amount ∧ amount ≤ bal))
    ∧ ∀ s1, placeBid s bookId bidderId amount now = .ok s1 →
        findBook s1 bookId = some { book with currentBid := amount }
          ∧ book.currentBid < amount := by
  simp only [placeBid, hb, hu]
  constructor
  · constructor
    · rintro ⟨s1, h1⟩
      split_ifs at h1 with h2 h3 h4 h5 h6 h7 h8
      all_goals simp_all
    · rintro ⟨hty, hact, hend, hsell, hlt, hle⟩
      simp only [hty, hact, hend, hsell, bne_self_eq_false, Bool.not_true, Bool.false_eq_true,
        if_false, hlt.not_le, hle.not_lt, show ¬amount < 0 by omega, ne_eq,
        not_false_eq_true, beq_iff_eq, if_true, ite_false]
      exact ⟨_, rfl⟩
  · intro s1 h1
    split_ifs at h1 with h2 h3 h4 h5 h6 h7 h8 <;> cases h1
    refine ⟨?_, by omega⟩
    dsimp only [updateBook, findBook]
    rw [find?_updateWhere_self (fun b => b.id == bookId)
      (fun b => { b with currentBid := amount }) (fun b => rfl) s.books]
    rw [show List.find? (fun b => b.id == bookId) s.books = some book from hb]
    rfl

/-- Claim C2, witness: on the concrete store c1Init, bidding 20 on the
active auction 10 with funded bidder 2 succeeds. -/
theorem c2_placeBid_spec_witness :
    ∃ s1, placeBid c1Init 10 2 20 50 = .ok s1 :=
  (c2_placeBid_spec c1Init 10 2 20 50
    { id := 10, seller := 1, listingType := .auction, startingBid := 10, currentBid := 10,
      auctionEndTime := 100, isAuctionActive := true } (by decide) 20 (by decide)
    (by decide)).1.mpr (by decide)

/-- Claim C3: a successful placeBid leaves EXACTLY one winning bid on
the bid-upon listing - the updateMany of auctionService.js lines 99-104
clears every other bid of that listing and lines 106-108 set the new
bid winning - and leaves the bids of every other listing untouched, so
the at-most-one-winning-bid-per-listing invariant is preserved across
every operation state. -/
theorem c3_single_winner (s : MarketState) (bookId bidderId : Nat) (amount : Int) (now : Nat)
    (s1 : MarketState) (h : placeBid s bookId bidderId amount now = .ok s1) :
    (s1.bids.filter fun b => b.book == bookId && b.isWinning).length = 1
    ∧ ∀ k, k ≠ bookId →
        (s1.bids.filter fun b => b.book == k && b.isWinning)
          = s.bids.filter fun b => b.book == k && b.isWinning := by
  simp only [placeBid] at h
  cases hfb : findBook s bookId with
  | none => simp only [hfb] at h; cases h
  | some book =>
    cases hub : findBalance s bidderId with
    | none =>
      simp only [hfb, hub] at h
      split_ifs at h <;> cases h
    | some bal =>
      simp only [hfb, hub] at h
      split_ifs at h with h2 h3 h4 h5 h6 h7 h8 <;> try cases h
      simp only [bids_updateBook]
      constructor
      · rw [List.filter_append, List.length_append, ← List.countP_eq_length_filter,
          countP_updateWhere_zero _ _ _
            (fun a _ => by by_cases hab : (a.book == bookId) = true <;> simp [hab])]
        simp
      · intro k hk
        have hbk : (bookId == k) = false := by
          simp only [beq_eq_false_iff_ne, ne_eq]
          exact fun he => hk he.symm
        rw [List.filter_append]
        have hnil := filter_updateWhere_untouched (fun b : Bid => b.book == bookId)
          (fun b => { b with isWinning := false }) (fun b => b.book == k && b.isWinning)
          (l := s.bids) ?_
        · rw [hnil]
          simp [List.filter_cons, hbk]
        · intro a _ hpa
          have hab : a.book = bookId := by simpa using hpa
          have hak : (a.book == k) = false := by
            simp only [beq_eq_false_iff_ne, ne_eq, hab]
            exact fun he => hk he.symm
          exact ⟨by simp [hak], by simp [hak]⟩

/-- Claim C3, witness: the concrete successful bid of the C2 witness
leaves exactly one winning bid on listing 10. -/
theorem c3_single_winner_witness :
    ∃ s1, placeBid c1Init 10 2 20 50 = .ok s1
      ∧ (s1.bids.filter fun b => b.book == 10 && b.isWinning).length = 1 := by
  refine ⟨_, rfl, ?_⟩
  exact (c3_single_winner c1Init 10 2 20 50 _ rfl).1

theorem updateWhere_id_of_none (p : α → Bool) (f) {l : List α} (h : ∀ a ∈ l, p a = false) :
    updateWhere p f l = l := by
  induction l with
  | nil => rfl
  | cons a l ih =>
    have ha := h a (List.mem_cons_self a l)
    have ht := ih fun x hx => h x (List.mem_cons_of_mem a hx)
    simp only [updateWhere] at ht ⊢
    simp [ha, ht]

theorem find?_append_right (p : α → Bool) {l1 l2 : List α} (h : ∀ a ∈ l1, p a = false) :
    (l1 ++ l2).find? p = l2.find? p := by
  induction l1 with
  | nil => rfl
  | cons a l ih =>
    have ha := h a (List.mem_cons_self a l)
    rw [List.cons_append, List.find?_cons_of_neg _ (by simp [ha])]
    exact ih fun x hx => h x (List.mem_cons_of_mem a hx)

/-- Claim C6, amended: makeOffer rejects a buyer who already has a
PENDING offer on the listing (so at most one pending offer per
(listing, buyer) pair is invariant), but an offer in counter-offered
status does not block, so the claimed pending-or-countered uniqueness
does not hold; on success the pair's pending count becomes exactly one
and every other pair's pending offers are untouched. -/
theorem c6_makeOffer_amended (s : MarketState) (bookId buyerId : Nat) (amount : Int) (now : Nat) :
    ((∃ o, o ∈ s.offers ∧ o.book = bookId ∧ o.buyer = buyerId ∧ o.status = .pending) →
      ∃ e, makeOffer s bookId buyerId amount now = .error e)
    ∧ ∀ s1, makeOffer s bookId buyerId amount now = .ok s1 →
        ((s1.offers.filter fun o =>
            o.book == bookId && o.buyer == buyerId && o.status == .pending).length = 1
          ∧ (s.offers.filter fun o =>
              o.book == bookId && o.buyer == buyerId && o.status == .pending).length = 0
          ∧ ∀ bk bu, ¬(bk = bookId ∧ bu = buyerId) →
              (s1.offers.filter fun o =>
                o.book == bk && o.buyer == bu && o.status == .pending)
                = s.offers.filter fun o =>
                    o.book == bk && o.buyer == bu && o.status == .pending) := by
  have key : ∀ s1, makeOffer s bookId buyerId amount now = .ok s1 →
      ((s.offers.find? fun o =>
          o.book == bookId && o.buyer == buyerId && o.status == .pending) = none
        ∧ s1.offers = s.offers
            ++ [{ id := s.nextId, book := bookId, buyer := buyerId, amount := amount, expiresAt := now + defaultOfferExpiryMs }]) := by
    intro s1 h
    simp only [makeOffer] at h
    cases hfb : findBook s bookId with
    | none => simp only [hfb] at h; cases h
    | some book =>
      cases hub : findBalance s buyerId with
      | none =>
        simp only [hfb, hub] at h
        split_ifs at h <;> cases h
      | some bal =>
        simp only [hfb, hub] at h
        split_ifs at h with h2 h3 h4 h5 h6 h7 h8 <;> try cases h
        refine ⟨?_, rfl⟩
        simpa using h7
  constructor
  · intro ⟨o, ho, hbk, hbu, hst⟩
    cases hres : makeOffer s bookId buyerId amount now with
    | error e => exact ⟨e, rfl⟩
    | ok s1 =>
      exfalso
      have hnone := (key s1 hres).1
      have := List.find?_eq_none.mp hnone o ho
      simp [hbk, hbu, hst] at this
  · intro s1 h
    obtain ⟨hnone, hoff⟩ := key s1 h
    have hzero : (s.offers.filter fun o =>
        o.book == bookId && o.buyer == buyerId && o.status == .pending).length = 0 := by
      rw [← List.countP_eq_length_filter, List.countP_eq_zero]
      exact List.find?_eq_none.mp hnone
    refine ⟨?_, hzero, ?_⟩
    · rw [hoff, List.filter_append, List.length_append, hzero]
      simp [List.filter_cons]
    · intro bk bu hne
      rw [hoff, List.filter_append]
      have : (([{ id := s.nextId, book := bookId, buyer := buyerId, amount := amount, expiresAt := now + defaultOfferExpiryMs }] : List Offer).filter fun o =>
            o.book == bk && o.buyer == bu && o.status == .pending) = [] := by
        by_cases hb : bk = bookId
        · have hbu : bu ≠ buyerId := fun he => hne ⟨hb, he⟩
          simp [List.filter_cons, (by simpa using (Ne.symm hbu) : (buyerId == bu) = false)]
        · simp [List.filter_cons, (by simpa using (fun he => hb he.symm) : (bookId == bk) = false)]
      rw [this, List.append_nil]

/-- Claim C6, witness: on the concrete store c56Init, buyer 2's first
offer (amount 30) is accepted and yields exactly one pending offer for
the pair (book 20, buyer 2). -/
theorem c6_makeOffer_amended_witness :
    ∃ s1, makeOffer c56Init 20 2 30 0 = .ok s1
      ∧ (s1.offers.filter fun o =>
          o.book == 20 && o.buyer == 2 && o.status == .pending).length = 1 := by
  refine ⟨_, rfl, ?_⟩
  exact ((c6_makeOffer_amended c56Init 20 2 30 0).2 _ rfl).1

theorem updateWhere_append (p : α → Bool) (f) (l1 l2 : List α) :
    updateWhere p f (l1 ++ l2) = updateWhere p f l1 ++ updateWhere p f l2 := by
  simp [updateWhere]

theorem offers_txnComplete (s : MarketState) (tid : Nat) (bu : Option Nat) :
    (txnComplete s tid bu).offers = s.offers := by
  unfold txnComplete
  dsimp only
  repeat' split
  all_goals rfl

theorem trades_txnComplete (s : MarketState) (tid : Nat) (bu : Option Nat) :
    (txnComplete s tid bu).trades = s.trades := by
  unfold txnComplete
  dsimp only
  repeat' split
  all_goals rfl

theorem bids_txnComplete (s : MarketState) (tid : Nat) (bu : Option Nat) :
    (txnComplete s tid bu).bids = s.bids := by
  unfold txnComplete
  dsimp only
  repeat' split
  all_goals rfl

theorem nextId_txnComplete (s : MarketState) (tid : Nat) (bu : Option Nat) :
    (txnComplete s tid bu).nextId = s.nextId := by
  unfold txnComplete
  dsimp only
  repeat' split
  all_goals rfl

theorem txns_txnComplete_found {s : MarketState} {tid : Nat} {t : Txn} (bu : Option Nat)
    (hft : findTxn s tid = some t) :
    (txnComplete s tid bu).txns
      = updateWhere (fun x => x.id == tid) (fun x => { x with status := .completed }) s.txns := by
  unfold txnComplete
  rw [hft]
  dsimp only
  repeat' split
  all_goals rfl

theorem eq_of_mem_pairwise_ne {l : List Offer} (hnd : l.Pairwise fun a b => a.id ≠ b.id)
    {x y : Offer} (hx : x ∈ l) (hy : y ∈ l) (hid : x.id = y.id) : x = y := by
  induction l with
  | nil => cases hx
  | cons a t ih =>
    have hpw := List.pairwise_cons.mp hnd
    rcases List.mem_cons.mp hx with rfl | hxt
    · rcases List.mem_cons.mp hy with rfl | hyt
      · rfl
      · exact absurd hid (hpw.1 y hyt)
    · rcases List.mem_cons.mp hy with rfl | hyt
      · exact absurd hid.symm (hpw.1 x hxt)
      · exact ih hpw.2 hxt hyt

/-- Claim C5, amended: a successful acceptOffer rejects every OTHER
PENDING offer on the listing (afterwards no offer of the listing is
pending), leaves offers in counter-offered status untouched, and
appends exactly one completed Transaction of type offer for the
accepted amount.  (The claim as frozen also demanded the rejection of
countered offers; the c5 counterexample refutes that part.)  The
hypotheses are store invariants: offer ids are pairwise distinct and
the id counter is fresh for the Transaction collection. -/
theorem c5_acceptOffer_amended (s : MarketState) (offerId sellerId : Nat) (now : Nat)
    (offer : Offer) (ho : findOffer s offerId = some offer)
    (hnd : s.offers.Pairwise fun a b => a.id ≠ b.id)
    (hfresh : txnIdFresh s = true) :
    ∀ s1, acceptOffer s offerId sellerId now = .ok s1 →
      ((s1.offers.filter fun o => o.book == offer.book && o.status == .pending).length = 0
        ∧ (∀ o, o ∈ s.offers → o.status = .counterOffered → o ∈ s1.offers)
        ∧ ∃ t, s1.txns = s.txns ++ [t] ∧ t.type = .offer ∧ t.status = .completed
            ∧ t.amount = offer.amount) := by
  intro s1 h
  simp only [acceptOffer, ho, offerAccept, createOfferTxn, txnSave] at h
  cases hbk : findBook s offer.book with
  | none =>
    simp only [hbk] at h
    split_ifs at h <;> cases h
  | some book =>
    cases hbb : findBalance s offer.buyer with
    | none =>
      simp only [hbk, hbb] at h
      split_ifs at h <;> cases h
    | some bal =>
      simp only [hbk, hbb] at h
      split_ifs at h with h2 h3 h4 h5 h6 h7 <;> try cases h
      dsimp only at h
      split_ifs at h with hval
      dsimp only at h
      cases h
      have hbookid : book.id = offer.book := by simpa using List.find?_some hbk
      have hpend : offer.status = .pending := by
        simpa using h2
      have hmem : offer ∈ s.offers := List.mem_of_find?_eq_some ho
      have hfreshlist : ∀ x ∈ s.txns, (x.id == s.nextId) = false := by
        intro x hx
        have := List.all_eq_true.mp hfresh x hx
        simpa using this
      refine ⟨?_, ?_, ?_⟩
      · -- no pending offer remains on the listing
        simp only [offers_updateBook, offers_txnComplete]
        rw [← List.countP_eq_length_filter]
        apply countP_updateWhere_zero
        intro b hb
        rcases (mem_updateWhere_iff _ _).mp hb with ⟨a, _, rfl⟩
        by_cases hacc : (a.id == offer.id) = true
        · have hap : (OfferStatus.accepted == OfferStatus.pending) = false := by decide
          simp [hacc, hap]
        · simp only [hacc, Bool.false_eq_true, if_false]
          by_cases hab : (a.book == book.id) = true
          · by_cases has : a.status = .pending
            · have hidne : ¬a.id = offer.id := by simpa using hacc
              have hrej : ((a.book == book.id && a.id != offer.id)
                  && a.status == OfferStatus.pending) = true := by
                simp [hab, has, hidne]
              have hrp : (OfferStatus.rejected == OfferStatus.pending) = false := by decide
              simp [hrej, hrp]
            · have hsf : (a.status == OfferStatus.pending) = false := by simpa using has
              have hrej : ((a.book == book.id && a.id != offer.id)
                  && a.status == OfferStatus.pending) = false := by
                simp [hsf]
              simp [hrej, hsf]
          · have hbf : (a.book == book.id) = false := by simpa using hab
            have hbo : (a.book == offer.book) = false := by
              rw [← hbookid]
              exact hbf
            have hrej : ((a.book == book.id && a.id != offer.id)
                && a.status == OfferStatus.pending) = false := by
              simp [hbf]
            simp [hrej, hbo]
      · -- countered offers are untouched
        intro o homem hocount
        simp only [offers_updateBook, offers_txnComplete]
        have hne : (o.id == offer.id) = false := by
          by_cases hid : o.id = offer.id
          · exfalso
            have := eq_of_mem_pairwise_ne hnd homem hmem hid
            rw [this] at hocount
            rw [hpend] at hocount
            cases hocount
          · simpa using hid
        have step1 := mem_updateWhere_of_mem (fun x => x.id == offer.id)
          (fun x => { x with status := OfferStatus.accepted }) homem
        simp only [hne, Bool.false_eq_true, if_false] at step1
        have hrej : ((o.book == book.id && o.id != offer.id)
            && o.status == OfferStatus.pending) = false := by
          have : (o.status == OfferStatus.pending) = false := by
            rw [hocount]
            decide
          simp [this]
        have step2 := mem_updateWhere_of_mem
          (fun x => (x.book == book.id && x.id != offer.id) && x.status == OfferStatus.pending)
          (fun x => { x with status := OfferStatus.rejected }) step1
        simp only [hrej, Bool.false_eq_true, if_false] at step2
        exact step2
      · -- exactly one completed transaction appended
        have hft : findTxn { s with
            offers := updateWhere (fun x => x.id == offer.id)
              (fun x => { x with status := OfferStatus.accepted }) s.offers,
            txns := s.txns
              ++ [{ id := s.nextId, type := TxnType.offer, buyer := some offer.buyer, seller := book.seller, book := some book.id, trade := none, amount := offer.amount, status := TxnStatus.pending }],
            nextId := s.nextId + 1 } s.nextId
            = some { id := s.nextId, type := TxnType.offer, buyer := some offer.buyer, seller := book.seller, book := some book.id, trade := none, amount := offer.amount, status := TxnStatus.pending } := by
          unfold findTxn
          dsimp only
          rw [find?_append_right _ hfreshlist]
          simp
        refine ⟨{ id := s.nextId, type := TxnType.offer, buyer := some offer.buyer, seller := book.seller, book := some book.id, trade := none, amount := offer.amount, status := TxnStatus.completed }, ?_, rfl, rfl, rfl⟩
        simp only [txns_updateBook]
        rw [txns_txnComplete_found (some offer.buyer) hft]
        dsimp only
        rw [updateWhere_append]
        rw [updateWhere_id_of_none _ _ hfreshlist]
        simp [updateWhere]

/-- Concrete store for the C5 witness: one pending offer (id 30,
buyer 2, amount 25) on seller 1's offer-accepting listing 20. -/
def c5WitState : MarketState :=
  { users := [(1, 0), (2, 100)],
    books := [{ id := 20, seller := 1, listingType := .fixedPrice, fixedPrice := 50,
                acceptsOffers := true }],
    bids := [],
    offers := [{ id := 30, book := 20, buyer := 2, amount := 25, expiresAt := 1000 }],
    trades := [], txns := [], nextId := 31 }

/-- Claim C5, witness: accepting offer 30 on the concrete store
succeeds and leaves no pending offer on listing 20. -/
theorem c5_acceptOffer_amended_witness :
    ∃ s1, acceptOffer c5WitState 30 1 0 = .ok s1
      ∧ (s1.offers.filter fun o => o.book == 20 && o.status == .pending).length = 0 := by
  refine ⟨_, rfl, ?_⟩
  exact (c5_acceptOffer_amended c5WitState 30 1 0
    { id := 30, book := 20, buyer := 2, amount := 25, expiresAt := 1000 }
    (by decide) (by decide) (by decide) _ rfl).1

/-- Stronger id-freshness invariant: every transaction id is below the
counter (true of any store whose ids were drawn from the counter). -/
def txnIdsBounded (s : MarketState) : Bool :=
  s.txns.all fun t => t.id < s.nextId

theorem txnIdFresh_of_bounded {s : MarketState} (h : txnIdsBounded s = true) :
    ∀ x ∈ s.txns, (x.id == s.nextId) = false := by
  intro x hx
  have := List.all_eq_true.mp h x hx
  simp only [decide_eq_true_eq] at this
  simp only [beq_eq_false_iff_ne, ne_eq]
  omega

theorem map_key_updateWhere (key : α → β) (p : α → Bool) (f : α → α)
    (hk : ∀ a, key (f a) = key a) (l : List α) :
    (updateWhere p f l).map key = l.map key := by
  unfold updateWhere
  rw [List.map_map]
  apply List.map_congr_left
  intro a _
  by_cases hp : p a <;> simp [hp, hk]

theorem books_txnComplete_found {s : MarketState} {tid : Nat} {t : Txn} {bk0 : Nat}
    (bu : Option Nat) (hft : findTxn s tid = some t)
    (hty : (t.type != TxnType.trade) = true) (hbk : t.book = some bk0) :
    (txnComplete s tid bu).books
      = updateWhere (fun b => b.id == bk0)
          (fun b => { b with isAvailable := false, soldTo := bu }) s.books := by
  unfold txnComplete
  rw [hft]
  dsimp only
  rw [hty, hbk]
  rw [if_pos rfl]
  cases t.buyer <;> split_ifs <;> rfl

theorem users_txnComplete_found {s : MarketState} {tid : Nat} {t : Txn} {bu0 : Nat}
    (bu : Option Nat) (hft : findTxn s tid = some t)
    (hty : (t.type != TxnType.trade) = true) (hbuy : t.buyer = some bu0) :
    (txnComplete s tid bu).users
      = if 0 < t.amount
        then (incBalance (incBalance s bu0 (-t.amount)) t.seller t.amount).users
        else s.users := by
  unfold txnComplete
  rw [hft]
  dsimp only
  rw [hbuy, hty]
  rw [if_pos rfl]
  split_ifs with hamt
  · cases t.book <;> rfl
  · cases t.book <;> rfl

/-- endAuction success analysis (auctionService.js lines 151-236): on a
stored auction listing, under the bid-amount schema invariant and id
freshness, the closure succeeds; it deactivates the listing and makes
it unavailable, leaves all bids and every other listing untouched, and,
when a winning bid exists, appends exactly one completed auction
Transaction debiting the winner - without any balance check. -/
theorem endAuction_ok {s : MarketState} {bookId : Nat} {book : Book}
    (hb : findBook s bookId = some book) (hty : book.listingType = .auction)
    (hbids : ∀ bd ∈ s.bids, 0 ≤ bd.amount)
    (hbnd : txnIdsBounded s = true) :
    ∃ s1, endAuction s bookId = .ok s1
      ∧ s1.bids = s.bids
      ∧ ((findBook s1 bookId).map (·.isAuctionActive)) = some false
      ∧ ((findBook s1 bookId).map (·.isAvailable)) = some false
      ∧ ((findBook s1 bookId).map (·.listingType)) = some book.listingType
      ∧ s1.books.map (·.id) = s.books.map (·.id)
      ∧ (∀ y, y ≠ bookId → findBook s1 y = findBook s y)
      ∧ txnIdsBounded s1 = true
      ∧ (∀ wb, (s.bids.find? fun b => b.book == bookId && b.isWinning) = some wb →
          (∃ t, s1.txns = s.txns ++ [t] ∧ t.type = .auction ∧ t.status = .completed
            ∧ t.amount = wb.amount ∧ t.buyer = some wb.bidder ∧ t.seller = book.seller)
          ∧ s1.users = (if 0 < wb.amount
              then (incBalance (incBalance s wb.bidder (-wb.amount)) book.seller wb.amount).users
              else s.users))
      ∧ ((s.bids.find? fun b => b.book == bookId && b.isWinning) = none →
          s1.txns = s.txns ∧ s1.users = s.users) := by
  have hfresh := txnIdFresh_of_bounded hbnd
  have htyb : (book.listingType != ListingType.auction) = false := by
    simp [hty]
  cases hwb : s.bids.find? (fun b => b.book == bookId && b.isWinning) with
  | none =>
    refine ⟨updateBook s bookId fun b => { b with isAuctionActive := false, isAvailable := false }, ?_, rfl, ?_, ?_, ?_, ?_, ?_, ?_, ?_, ?_⟩
    · simp only [endAuction, hb, htyb, Bool.false_eq_true, if_false, hwb]
    · rw [findBook_updateBook_self _ bookId
        (fun b => { b with isAuctionActive := false, isAvailable := false }) (fun b => rfl), hb]
      rfl
    · rw [findBook_updateBook_self _ bookId
        (fun b => { b with isAuctionActive := false, isAvailable := false }) (fun b => rfl), hb]
      rfl
    · rw [findBook_updateBook_self _ bookId
        (fun b => { b with isAuctionActive := false, isAvailable := false }) (fun b => rfl), hb]
      rfl
    · show (updateWhere (fun b : Book => b.id == bookId)
          (fun b : Book => { b with isAuctionActive := false, isAvailable := false })
          s.books).map (fun b => b.id) = s.books.map (fun b => b.id)
      exact map_key_updateWhere (fun b : Book => b.id) (fun b : Book => b.id == bookId)
        (fun b : Book => { b with isAuctionActive := false, isAvailable := false })
        (fun b => rfl) s.books
    · intro y hy
      exact findBook_updateBook_other s bookId y
        (fun b => { b with isAuctionActive := false, isAvailable := false }) (fun b => rfl) hy
    · exact hbnd
    · intro wb hwbeq
      cases hwbeq
    · intro _
      exact ⟨rfl, rfl⟩
  | some wb =>
    have hwmem : wb ∈ s.bids := List.mem_of_find?_eq_some hwb
    have hwamt : 0 ≤ wb.amount := hbids wb hwmem
    have hv : txnValid { id := s.nextId, type := TxnType.auction, buyer := some wb.bidder, seller := book.seller, book := some book.id, trade := none, amount := wb.amount, status := TxnStatus.pending } = true := by
      simp [txnValid, txnTypeAllowed, hwamt]
    have hbookid : book.id = bookId := by simpa using List.find?_some hb
    have hfresh2 : ∀ x ∈ s.txns, (x.id == s.nextId) = false := hfresh
    have hft : findTxn { s with
        books := updateWhere (fun b => b.id == bookId)
          (fun b => { b with isAuctionActive := false, isAvailable := false }) s.books,
        txns := s.txns
          ++ [{ id := s.nextId, type := TxnType.auction, buyer := some wb.bidder, seller := book.seller, book := some book.id, trade := none, amount := wb.amount, status := TxnStatus.pending }],
        nextId := s.nextId + 1 } s.nextId
        = some { id := s.nextId, type := TxnType.auction, buyer := some wb.bidder, seller := book.seller, book := some book.id, trade := none, amount := wb.amount, status := TxnStatus.pending } := by
      unfold findTxn
      dsimp only
      rw [find?_append_right _ hfresh2]
      simp
    have htr : (TxnType.auction != TxnType.trade) = true := by decide
    have hxbooks := books_txnComplete_found (t := { id := s.nextId, type := TxnType.auction, buyer := some wb.bidder, seller := book.seller, book := some book.id, trade := none, amount := wb.amount, status := TxnStatus.pending })
      (some wb.bidder) hft htr rfl
    have hxtxns := txns_txnComplete_found (t := { id := s.nextId, type := TxnType.auction, buyer := some wb.bidder, seller := book.seller, book := some book.id, trade := none, amount := wb.amount, status := TxnStatus.pending })
      (some wb.bidder) hft
    have hxusers := users_txnComplete_found (t := { id := s.nextId, type := TxnType.auction, buyer := some wb.bidder, seller := book.seller, book := some book.id, trade := none, amount := wb.amount, status := TxnStatus.pending })
      (some wb.bidder) hft htr rfl
    have hrun : endAuction s bookId = .ok (txnComplete { s with
        books := updateWhere (fun b => b.id == bookId)
          (fun b => { b with isAuctionActive := false, isAvailable := false }) s.books,
        txns := s.txns
          ++ [{ id := s.nextId, type := TxnType.auction, buyer := some wb.bidder, seller := book.seller, book := some book.id, trade := none, amount := wb.amount, status := TxnStatus.pending }],
        nextId := s.nextId + 1 } s.nextId (some wb.bidder)) := by
      simp only [endAuction, hb, htyb, Bool.false_eq_true, if_false, hwb, createAuctionTxn,
        txnSave]
      dsimp only [updateBook]
      rw [hv]
      rfl
    refine ⟨_, hrun, ?_, ?_, ?_, ?_, ?_, ?_, ?_, ?_, ?_⟩
    · rw [bids_txnComplete]
    · show ((txnComplete _ _ _).books.find? fun b => b.id == bookId).map (·.isAuctionActive)
        = some false
      rw [hxbooks]
      dsimp only
      rw [hbookid]
      rw [find?_updateWhere_self (fun b : Book => b.id == bookId)
        (fun b : Book => { b with isAvailable := false, soldTo := some wb.bidder }) (fun b => rfl)]
      rw [find?_updateWhere_self (fun b : Book => b.id == bookId)
        (fun b : Book => { b with isAuctionActive := false, isAvailable := false }) (fun b => rfl)]
      rw [show List.find? (fun b : Book => b.id == bookId) s.books = some book from hb]
      rfl
    · show ((txnComplete _ _ _).books.find? fun b => b.id == bookId).map (·.isAvailable)
        = some false
      rw [hxbooks]
      dsimp only
      rw [hbookid]
      rw [find?_updateWhere_self (fun b : Book => b.id == bookId)
        (fun b : Book => { b with isAvailable := false, soldTo := some wb.bidder }) (fun b => rfl)]
      rw [find?_updateWhere_self (fun b : Book => b.id == bookId)
        (fun b : Book => { b with isAuctionActive := false, isAvailable := false }) (fun b => rfl)]
      rw [show List.find? (fun b : Book => b.id == bookId) s.books = some book from hb]
      rfl
    · show ((txnComplete _ _ _).books.find? fun b => b.id == bookId).map (·.listingType)
        = some book.listingType
      rw [hxbooks]
      dsimp only
      rw [hbookid]
      rw [find?_updateWhere_self (fun b : Book => b.id == bookId)
        (fun b : Book => { b with isAvailable := false, soldTo := some wb.bidder }) (fun b => rfl)]
      rw [find?_updateWhere_self (fun b : Book => b.id == bookId)
        (fun b : Book => { b with isAuctionActive := false, isAvailable := false }) (fun b => rfl)]
      rw [show List.find? (fun b : Book => b.id == bookId) s.books = some book from hb]
      rfl
    · show ((txnComplete _ _ _).books.map fun b => b.id) = s.books.map fun b => b.id
      rw [hxbooks]
      dsimp only
      rw [map_key_updateWhere (fun b : Book => b.id) (fun b : Book => b.id == book.id)
        (fun b : Book => { b with isAvailable := false, soldTo := some wb.bidder }) (fun b => rfl)]
      exact map_key_updateWhere (fun b : Book => b.id) (fun b : Book => b.id == bookId)
        (fun b : Book => { b with isAuctionActive := false, isAvailable := false }) (fun b => rfl) s.books
    · intro y hy
      show ((txnComplete _ _ _).books.find? fun b => b.id == y) = findBook s y
      rw [hxbooks]
      dsimp only
      rw [hbookid]
      rw [find?_updateWhere (fun b : Book => b.id == bookId)
        (fun b : Book => { b with isAvailable := false, soldTo := some wb.bidder })
        (fun b : Book => b.id == y) (fun b => rfl)]
      rw [find?_updateWhere (fun b : Book => b.id == bookId)
        (fun b : Book => { b with isAuctionActive := false, isAvailable := false })
        (fun b : Book => b.id == y) (fun b => rfl)]
      unfold findBook
      cases hfy : s.books.find? fun b => b.id == y with
      | none => rfl
      | some by0 =>
        have hbyid : by0.id = y := by simpa using List.find?_some hfy
        have hnid : ¬by0.id = bookId := by
          rw [hbyid]
          exact hy
        simp [hnid]
    · show txnIdsBounded (txnComplete _ _ _) = true
      unfold txnIdsBounded
      rw [hxtxns, nextId_txnComplete]
      dsimp only
      rw [updateWhere_append, List.all_append]
      rw [updateWhere_id_of_none _ _ hfresh2]
      have h1 : s.txns.all (fun t => decide (t.id < s.nextId + 1)) = true := by
        rw [List.all_eq_true]
        intro x hx
        have := List.all_eq_true.mp hbnd x hx
        simp only [decide_eq_true_eq] at this ⊢
        omega
      rw [h1]
      simp [updateWhere]
    · intro wb0 hwbeq
      cases hwbeq
      constructor
      · refine ⟨{ id := s.nextId, type := TxnType.auction, buyer := some wb.bidder, seller := book.seller, book := some book.id, trade := none, amount := wb.amount, status := TxnStatus.completed }, ?_, rfl, rfl, rfl, rfl, rfl⟩
        rw [hxtxns]
        dsimp only
        rw [updateWhere_append, updateWhere_id_of_none _ _ hfresh2]
        simp [updateWhere]
      · rw [hxusers]
        dsimp only
        split_ifs with hpos
        · rfl
        · rfl
    · intro hnone
      cases hnone

/-- Claim C10: manuallyEndAuction (auctionService.js lines 367-392)
lets exactly the seller end an auction: any other caller fails on the
authorization check (which precedes every other check), a non-auction
fails next, an already-ended auction is rejected as a state conflict,
and otherwise the call runs the very endAuction closure the sweep uses,
which settles with the current winning bid when one exists.  Neither
manuallyEndAuction nor endAuction ever consults the clock - no `now`
parameter exists in the embedding because the source never reads the
time - so the seller can close an auction before auctionEndTime. -/
theorem c10_manuallyEndAuction_spec (s : MarketState) (bookId callerId : Nat)
    (book : Book) (hb : findBook s bookId = some book)
    (hbids : ∀ bd ∈ s.bids, 0 ≤ bd.amount) (hbnd : txnIdsBounded s = true) :
    (book.seller ≠ callerId →
      manuallyEndAuction s bookId callerId
        = .error "Only the seller can manually end the auction")
    ∧ (book.seller = callerId → book.listingType ≠ .auction →
      manuallyEndAuction s bookId callerId = .error "This is not an auction")
    ∧ (book.seller = callerId → book.listingType = .auction → book.isAuctionActive = false →
      manuallyEndAuction s bookId callerId = .error "Auction is already ended")
    ∧ (book.seller = callerId → book.listingType = .auction → book.isAuctionActive = true →
      manuallyEndAuction s bookId callerId = endAuction s bookId
      ∧ ∃ s1, endAuction s bookId = .ok s1
          ∧ ((findBook s1 bookId).map (·.isAuctionActive)) = some false
          ∧ ((findBook s1 bookId).map (·.isAvailable)) = some false
          ∧ (∀ wb, (s.bids.find? fun b => b.book == bookId && b.isWinning) = some wb →
              ∃ t, s1.txns = s.txns ++ [t] ∧ t.type = .auction ∧ t.status = .completed
                ∧ t.amount = wb.amount ∧ t.buyer = some wb.bidder ∧ t.seller = book.seller)) := by
  refine ⟨?_, ?_, ?_, ?_⟩
  · intro hsell
    have : (book.seller != callerId) = true := by simpa using hsell
    simp [manuallyEndAuction, hb, this]
  · intro hsell hty
    have h1 : (book.seller != callerId) = false := by simpa using hsell
    have h2 : (book.listingType != ListingType.auction) = true := by simpa using hty
    simp [manuallyEndAuction, hb, h1, h2]
  · intro hsell hty hact
    have h1 : (book.seller != callerId) = false := by simpa using hsell
    have h2 : (book.listingType != ListingType.auction) = false := by simpa using hty
    simp [manuallyEndAuction, hb, h1, h2, hact]
  · intro hsell hty hact
    have h1 : (book.seller != callerId) = false := by simpa using hsell
    have h2 : (book.listingType != ListingType.auction) = false := by simpa using hty
    constructor
    · simp [manuallyEndAuction, hb, h1, h2, hact]
    · obtain ⟨s1, hrun, _, hclosed, hunavail, _, _, _, _, hwin, _⟩ :=
        endAuction_ok hb hty hbids hbnd
      exact ⟨s1, hrun, hclosed, hunavail, fun wb hwb => (hwin wb hwb).1⟩

/-- Concrete store for the C10 witness: seller 1's auction 10 is active
with a winning bid of 20 by bidder 2 and does not end until instant
1000, yet the seller can close it immediately. -/
def c10WitState : MarketState :=
  { users := [(1, 0), (2, 50)],
    books := [{ id := 10, seller := 1, listingType := .auction, startingBid := 10,
                currentBid := 20, auctionEndTime := 1000, isAuctionActive := true }],
    bids := [{ id := 5, book := 10, bidder := 2, amount := 20, isWinning := true }],
    offers := [], trades := [], txns := [], nextId := 6 }

/-- Claim C10, witness: on the concrete store the seller's manual call
equals the sweep closure and succeeds (before the end time). -/
theorem c10_manuallyEndAuction_spec_witness :
    manuallyEndAuction c10WitState 10 1 = endAuction c10WitState 10
      ∧ ∃ s1, endAuction c10WitState 10 = .ok s1 := by
  have h := (c10_manuallyEndAuction_spec c10WitState 10 1
    { id := 10, seller := 1, listingType := .auction, startingBid := 10,
      currentBid := 20, auctionEndTime := 1000, isAuctionActive := true }
    (by decide) (by decide) (by decide)).2.2.2 rfl rfl rfl
  exact ⟨h.1, h.2.choose, h.2.choose_spec.1⟩

theorem find?_key_of_mem_nodup2 (key : α → Nat) {l : List α}
    (hnd : (l.map key).Nodup) {a : α} (hm : a ∈ l) :
    (l.find? fun x => key x == key a) = some a := by
  induction l with
  | nil => cases hm
  | cons x t ih =>
    simp only [List.map_cons] at hnd
    have hnd' := List.nodup_cons.mp hnd
    rcases List.mem_cons.mp hm with rfl | hmt
    · simp
    · have hne : (key x == key a) = false := by
        simp only [beq_eq_false_iff_ne, ne_eq]
        intro he
        exact hnd'.1 (he ▸ List.mem_map_of_mem key hmt)
      rw [List.find?_cons_of_neg _ (by simp [hne])]
      exact ih hnd'.2 hmt

theorem findBook_of_mem_nodup {s : MarketState}
    (hnd : (s.books.map fun b => b.id).Nodup) {b : Book} (hm : b ∈ s.books) :
    findBook s b.id = some b := by
  have h := find?_key_of_mem_nodup2 (fun x : Book => x.id) hnd hm
  unfold findBook
  exact h

theorem mem_expired_batch_of_find {s : MarketState} {now x : Nat} {b : Book}
    (hfb : findBook s x = some b) (hty : b.listingType = .auction)
    (hact : b.isAuctionActive = true) (hexp : b.auctionEndTime ≤ now) :
    x ∈ expiredActiveAuctionIds s now := by
  have hmem := List.mem_of_find?_eq_some hfb
  have hid : b.id = x := by simpa using List.find?_some hfb
  unfold expiredActiveAuctionIds
  rw [← hid]
  apply List.mem_map_of_mem
  rw [List.mem_filter]
  exact ⟨hmem, by simp [hty, hact, hexp]⟩

theorem find_of_mem_expired_batch {s : MarketState} {now x : Nat}
    (hnd : (s.books.map fun b => b.id).Nodup)
    (hx : x ∈ expiredActiveAuctionIds s now) :
    ∃ b, findBook s x = some b ∧ b.listingType = .auction
      ∧ b.isAuctionActive = true ∧ b.auctionEndTime ≤ now := by
  unfold expiredActiveAuctionIds at hx
  rcases List.mem_map.mp hx with ⟨b, hbf, rfl⟩
  rcases List.mem_filter.mp hbf with ⟨hmem, hpred⟩
  have hty : b.listingType = .auction := by
    have := hpred
    simp only [Bool.and_eq_true, beq_iff_eq, decide_eq_true_eq] at this
    exact this.1.1
  have hact : b.isAuctionActive = true := by
    have := hpred
    simp only [Bool.and_eq_true, beq_iff_eq, decide_eq_true_eq] at this
    exact this.1.2
  have hexp : b.auctionEndTime ≤ now := by
    have := hpred
    simp only [Bool.and_eq_true, beq_iff_eq, decide_eq_true_eq] at this
    exact this.2
  exact ⟨b, findBook_of_mem_nodup hnd hmem, hty, hact, hexp⟩

theorem nodup_expired_batch {s : MarketState} {now : Nat}
    (hnd : (s.books.map fun b => b.id).Nodup) :
    (expiredActiveAuctionIds s now).Nodup := by
  unfold expiredActiveAuctionIds
  exact hnd.sublist ((List.filter_sublist _).map _)

/-- The loop of the sweep stops at the first failing listing: the
auctions after it are not visited in that tick. -/
theorem sweepGo_append_fault (failing : List Nat) {id : Nat} (l2 : List Nat)
    (hf : failing.contains id = true) :
    ∀ (l1 : List Nat) (s : MarketState), (∀ x ∈ l1, failing.contains x = false) →
      sweepGo failing (l1 ++ id :: l2) s = sweepGo failing l1 s := by
  intro l1
  induction l1 with
  | nil =>
    intro s _
    have hmem : id ∈ failing := by simpa using hf
    simp [sweepGo, hmem]
  | cons x t ih =>
    intro s hx
    have hxf : x ∉ failing := by
      have := hx x (List.mem_cons_self x t)
      simpa using this
    simp only [List.cons_append, sweepGo]
    rw [if_neg (by simpa using hxf), if_neg (by simpa using hxf)]
    cases endAuction s x with
    | error e => rfl
    | ok s1 => exact ih s1 fun y hy => hx y (List.mem_cons_of_mem x hy)

/-- Sweep-loop invariant analysis: the loop never touches a listing
outside its id list, and a failure-free pass over auction listings
closes every one of them. -/
theorem sweepGo_facts (failing : List Nat) (l : List Nat) :
    ∀ s : MarketState,
      (∀ bd ∈ s.bids, 0 ≤ bd.amount) → txnIdsBounded s = true →
      (∀ x ∈ l, ∃ b, findBook s x = some b ∧ b.listingType = .auction) →
      ((∀ y, (∀ x ∈ l, x ≠ y) → findBook (sweepGo failing l s) y = findBook s y)
        ∧ ((∀ x ∈ l, failing.contains x = false) → l.Nodup →
            ∀ x ∈ l, ((findBook (sweepGo failing l s) x).map (·.isAuctionActive))
              = some false)) := by
  induction l with
  | nil =>
    intro s _ _ _
    exact ⟨fun y _ => rfl, fun _ _ x hx => absurd hx (List.not_mem_nil x)⟩
  | cons a t ih =>
    intro s hbids hbnd hl
    by_cases hfa : failing.contains a = true
    · have hmem : a ∈ failing := by simpa using hfa
      constructor
      · intro y _
        simp [sweepGo, hmem]
      · intro hnf _ x _
        rw [hnf a (List.mem_cons_self a t)] at hfa
        simp at hfa
    · obtain ⟨b, hfb, hbty⟩ := hl a (List.mem_cons_self a t)
      obtain ⟨s1, hrun, hbidseq, hclosed, _, htypeeq, _, hother, hbnd1, _, _⟩ :=
        endAuction_ok hfb hbty hbids hbnd
      have hfa' : a ∉ failing := by
        cases hca : failing.contains a with
        | false => simpa using hca
        | true => exact absurd hca hfa
      have hstep : sweepGo failing (a :: t) s = sweepGo failing t s1 := by
        simp [sweepGo, hfa', hrun]
      have hbids1 : ∀ bd ∈ s1.bids, 0 ≤ bd.amount := by
        rw [hbidseq]
        exact hbids
      have hl1 : ∀ x ∈ t, ∃ bx, findBook s1 x = some bx ∧ bx.listingType = .auction := by
        intro x hx
        obtain ⟨bx, hfbx, hbtyx⟩ := hl x (List.mem_cons_of_mem a hx)
        by_cases hxa : x = a
        · subst hxa
          cases hf1 : findBook s1 x with
          | none => rw [hf1] at htypeeq; cases htypeeq
          | some b1 =>
            rw [hf1] at htypeeq
            refine ⟨b1, rfl, ?_⟩
            have hb1 : b1.listingType = b.listingType := by simpa using htypeeq
            rw [hb1, hbty]
        · rw [hother x hxa]
          exact ⟨bx, hfbx, hbtyx⟩
      obtain ⟨ihother, ihclosed⟩ := ih s1 hbids1 hbnd1 hl1
      constructor
      · intro y hy
        rw [hstep, ihother y fun x hx => hy x (List.mem_cons_of_mem a hx),
          hother y (hy a (List.mem_cons_self a t)).symm]
      · intro hnf hnd x hx
        rcases List.mem_cons.mp hx with rfl | hxt
        · rw [hstep]
          have hat : ∀ z ∈ t, z ≠ x := by
            intro z hz he
            exact (List.nodup_cons.mp hnd).1 (he ▸ hz)
          rw [ihother x hat]
          exact hclosed
        · rw [hstep]
          exact ihclosed (fun z hz => hnf z (List.mem_cons_of_mem a hz))
            (List.nodup_cons.mp hnd).2 x hxt

/-- Claim C4, amended: the sweep batch contains only active expired
auctions (already-closed auctions are skipped, so sweeping stays
idempotent), and a failure-free tick closes every auction of the
batch; but a failure while closing one auction ABORTS the remaining
batch for that tick - the catch of processEndedAuctions wraps the whole
loop - leaving the failed auction untouched and still in the next
tick's batch (retried), rather than processing the rest of the batch
in the same tick as the claim stated. -/
theorem c4_sweep_amended (s : MarketState) (now : Nat) (failing l1 l2 : List Nat) (id : Nat)
    (hnd : (s.books.map fun b => b.id).Nodup)
    (hbids : ∀ bd ∈ s.bids, 0 ≤ bd.amount) (hbnd : txnIdsBounded s = true) :
    (∀ x ∈ expiredActiveAuctionIds s now,
        ((findBook s x).map (·.isAuctionActive)) = some true)
    ∧ ((∀ x ∈ expiredActiveAuctionIds s now, failing.contains x = false) →
        ∀ x ∈ expiredActiveAuctionIds s now,
          ((findBook (processEndedAuctions failing s now) x).map (·.isAuctionActive))
            = some false)
    ∧ (expiredActiveAuctionIds s now = l1 ++ id :: l2 →
        (∀ x ∈ l1, failing.contains x = false) → failing.contains id = true →
        processEndedAuctions failing s now = sweepGo failing l1 s
        ∧ (id ∉ l1 →
            findBook (processEndedAuctions failing s now) id = findBook s id
            ∧ id ∈ expiredActiveAuctionIds (processEndedAuctions failing s now) now)) := by
  have hbatch : ∀ x ∈ expiredActiveAuctionIds s now,
      ∃ b, findBook s x = some b ∧ b.listingType = .auction
        ∧ b.isAuctionActive = true ∧ b.auctionEndTime ≤ now :=
    fun x hx => find_of_mem_expired_batch hnd hx
  refine ⟨?_, ?_, ?_⟩
  · intro x hx
    obtain ⟨b, hfb, _, hact, _⟩ := hbatch x hx
    rw [hfb]
    simp [hact]
  · intro hnf x hx
    have hfacts := sweepGo_facts failing (expiredActiveAuctionIds s now) s hbids hbnd
      (fun z hz => ⟨(hbatch z hz).choose, (hbatch z hz).choose_spec.1,
        (hbatch z hz).choose_spec.2.1⟩)
    exact hfacts.2 hnf (nodup_expired_batch hnd) x hx
  · intro hsplit hl1f hidf
    have habort : processEndedAuctions failing s now = sweepGo failing l1 s := by
      unfold processEndedAuctions
      rw [hsplit]
      exact sweepGo_append_fault failing l2 hidf l1 s hl1f
    refine ⟨habort, ?_⟩
    intro hnotin
    have hidmem : id ∈ expiredActiveAuctionIds s now := by
      rw [hsplit]
      exact List.mem_append_right l1 (List.mem_cons_self id l2)
    obtain ⟨b, hfb, hbty, hact, hexp⟩ := hbatch id hidmem
    have hl1sub : ∀ x ∈ l1, ∃ bx, findBook s x = some bx ∧ bx.listingType = .auction := by
      intro x hx
      have hxmem : x ∈ expiredActiveAuctionIds s now := by
        rw [hsplit]
        exact List.mem_append_left _ hx
      obtain ⟨bx, hfbx, hbtyx, _, _⟩ := hbatch x hxmem
      exact ⟨bx, hfbx, hbtyx⟩
    have hpres := (sweepGo_facts failing l1 s hbids hbnd hl1sub).1 id
      (fun x hx he => hnotin (he ▸ hx))
    rw [habort]
    refine ⟨hpres, ?_⟩
    exact mem_expired_batch_of_find (hpres.trans hfb) hbty hact hexp

/-- Claim C4, witness: on the two-expired-auction store c4Init with
auction 2 failing, the tick reduces to the failure-free prefix [1] and
auction 2 is still in the batch of the next tick. -/
theorem c4_sweep_amended_witness :
    processEndedAuctions [2] c4Init 50 = sweepGo [2] [1] c4Init
      ∧ 2 ∈ expiredActiveAuctionIds (processEndedAuctions [2] c4Init 50) 50 := by
  have h := (c4_sweep_amended c4Init 50 [2] [1] [] 2 (by decide) (by decide) (by decide)).2.2
    (by decide) (by decide) (by decide)
  exact ⟨h.1, (h.2 (by decide)).2⟩

/-- Abbreviation for the status updateMany on the Trade collection. -/
def tradesMark (st : TradeStatus) (tid0 : Nat) (l : List Trade) : List Trade :=
  updateWhere (fun x => x.id == tid0) (fun x => { x with status := st }) l

/-- Abbreviation for the ownership-transfer updateMany of Trade.js
lines 129-150. -/
def booksToOwner (newOwner : Nat) (ids : List Nat) (l : List Book) : List Book :=
  updateWhere (fun b => ids.contains b.id)
    (fun b => { b with seller := newOwner, isAvailable := false, soldTo := some newOwner }) l

theorem books_txnComplete_tradeType {s : MarketState} {tid : Nat} {t : Txn}
    (bu : Option Nat) (hft : findTxn s tid = some t) (hty : t.type = .trade) :
    (txnComplete s tid bu).books = s.books := by
  unfold txnComplete
  rw [hft]
  dsimp only
  rw [hty]
  rfl

/-- Claim C7: accepting a pending Trade whose referenced books are all
still owned by the claimed parties and available (with the two id sets
disjoint, as proposeTrade guarantees) succeeds and swaps ownership of
both book sets exactly once - every proposer book goes to the
recipient, every recipient book to the proposer, all unavailable -
marks the trade completed and appends exactly one completed zero-amount
audit Transaction; while acceptTrade on a trade that is no longer
pending (a completed one included) fails with the state-conflict error
before any write. -/
theorem c7_acceptTrade_spec (s : MarketState) (tradeId recipientId : Nat)
    (t : Trade) (ht : findTrade s tradeId = some t) :
    (t.status ≠ .pending →
      acceptTrade s tradeId recipientId = .error "Trade proposal is no longer pending")
    ∧ (t.status = .pending → t.recipient = recipientId → t.proposer ≠ t.recipient →
       (∀ id ∈ t.proposerBooks,
         ∃ b, findBook s id = some b ∧ b.seller = t.proposer ∧ b.isAvailable = true) →
       (∀ id ∈ t.recipientBooks,
         ∃ b, findBook s id = some b ∧ b.seller = t.recipient ∧ b.isAvailable = true) →
       (∀ id, id ∈ t.proposerBooks → id ∉ t.recipientBooks) →
       txnIdsBounded s = true →
       ∃ s1, acceptTrade s tradeId recipientId = .ok s1
         ∧ (∀ id ∈ t.proposerBooks, ∃ b1, findBook s1 id = some b1
             ∧ b1.seller = t.recipient ∧ b1.isAvailable = false)
         ∧ (∀ id ∈ t.recipientBooks, ∃ b1, findBook s1 id = some b1
             ∧ b1.seller = t.proposer ∧ b1.isAvailable = false)
         ∧ ((findTrade s1 tradeId).map (·.status)) = some .completed
         ∧ ∃ tx, s1.txns = s.txns ++ [tx] ∧ tx.type = .trade ∧ tx.status = .completed
             ∧ tx.amount = 0) := by
  have htid : t.id = tradeId := by simpa using List.find?_some ht
  constructor
  · intro hnp
    have hnpb : (t.status != TradeStatus.pending) = true := by simpa using hnp
    simp [acceptTrade, acceptTradeValidate, ht, hnpb]
  · intro hpend hrec hne hpbooks hrbooks hdisj hbnd
    have hfresh := txnIdFresh_of_bounded hbnd
    have hpendb : (t.status != TradeStatus.pending) = false := by simp [hpend]
    have hrecb : (t.recipient != recipientId) = false := by simp [hrec]
    have hallex : ((t.proposerBooks ++ t.recipientBooks).all fun id =>
        (findBook s id).isSome) = true := by
      rw [List.all_eq_true]
      intro x hx
      rcases List.mem_append.mp hx with hxp | hxr
      · obtain ⟨b, hfb, _, _⟩ := hpbooks x hxp
        simp [hfb]
      · obtain ⟨b, hfb, _, _⟩ := hrbooks x hxr
        simp [hfb]
    have hpav : (t.proposerBooks.all fun id =>
        ((findBook s id).map (·.isAvailable)).getD false) = true := by
      rw [List.all_eq_true]
      intro x hx
      obtain ⟨b, hfb, _, hav⟩ := hpbooks x hx
      simp [hfb, hav]
    have hrav : (t.recipientBooks.all fun id =>
        ((findBook s id).map (·.isAvailable)).getD false) = true := by
      rw [List.all_eq_true]
      intro x hx
      obtain ⟨b, hfb, _, hav⟩ := hrbooks x hx
      simp [hfb, hav]
    have hval : acceptTradeValidate s tradeId recipientId = .ok t := by
      simp [acceptTradeValidate, ht, hpendb, hrecb, hallex, hpav, hrav]
    have hownp : booksOwnedAvailable s t.proposer t.proposerBooks = true := by
      unfold booksOwnedAvailable
      rw [List.all_eq_true]
      intro x hx
      obtain ⟨b, hfb, hsel, hav⟩ := hpbooks x hx
      simp [hfb, hsel, hav]
    have hownr : booksOwnedAvailable s t.recipient t.recipientBooks = true := by
      unfold booksOwnedAvailable
      rw [List.all_eq_true]
      intro x hx
      obtain ⟨b, hfb, hsel, hav⟩ := hrbooks x hx
      simp [hfb, hsel, hav]
    have hhook : tradeSaveHookOk s t = true := by
      unfold tradeSaveHookOk
      have : (t.proposer == t.recipient) = false := by simpa using hne
      simp [this, hownp, hownr]
    have hacc : tradeAcceptStep s t = .ok { s with trades := tradesMark .accepted t.id s.trades } := by
      simp [tradeAcceptStep, hhook, tradesMark]
    have hhook2 : tradeSaveHookOk { s with trades := tradesMark .accepted t.id s.trades }
        { t with status := TradeStatus.completed } = true := hhook
    have hcomp : tradeCompleteStep { s with trades := tradesMark .accepted t.id s.trades } t
        = .ok { s with books := booksToOwner t.proposer t.recipientBooks (booksToOwner t.recipient t.proposerBooks s.books), trades := tradesMark .completed t.id (tradesMark .accepted t.id s.trades) } := by
      simp only [tradeCompleteStep, hhook2, Bool.not_true, Bool.false_eq_true, if_false]
      simp [tradesMark, booksToOwner]
    have hvalidtx : txnValid { id := s.nextId, type := TxnType.trade, buyer := none, seller := t.proposer, book := none, trade := some t.id, amount := 0, status := TxnStatus.pending } = true := by
      simp [txnValid, txnTypeAllowed]
    have htx : createTradeTxn { s with books := booksToOwner t.proposer t.recipientBooks (booksToOwner t.recipient t.proposerBooks s.books), trades := tradesMark .completed t.id (tradesMark .accepted t.id s.trades) } t
        = .ok ({ s with books := booksToOwner t.proposer t.recipientBooks (booksToOwner t.recipient t.proposerBooks s.books), trades := tradesMark .completed t.id (tradesMark .accepted t.id s.trades), txns := s.txns ++ [{ id := s.nextId, type := TxnType.trade, buyer := none, seller := t.proposer, book := none, trade := some t.id, amount := 0, status := TxnStatus.pending }], nextId := s.nextId + 1 }, s.nextId) := by
      simp only [createTradeTxn, txnSave]
      rw [if_pos hvalidtx]
    have hft3 : findTxn { s with books := booksToOwner t.proposer t.recipientBooks (booksToOwner t.recipient t.proposerBooks s.books), trades := tradesMark .completed t.id (tradesMark .accepted t.id s.trades), txns := s.txns ++ [{ id := s.nextId, type := TxnType.trade, buyer := none, seller := t.proposer, book := none, trade := some t.id, amount := 0, status := TxnStatus.pending }], nextId := s.nextId + 1 } s.nextId
        = some { id := s.nextId, type := TxnType.trade, buyer := none, seller := t.proposer, book := none, trade := some t.id, amount := 0, status := TxnStatus.pending } := by
      unfold findTxn
      dsimp only
      rw [find?_append_right _ hfresh]
      simp
    have hrun : acceptTrade s tradeId recipientId
        = .ok (txnComplete { s with books := booksToOwner t.proposer t.recipientBooks (booksToOwner t.recipient t.proposerBooks s.books), trades := tradesMark .completed t.id (tradesMark .accepted t.id s.trades), txns := s.txns ++ [{ id := s.nextId, type := TxnType.trade, buyer := none, seller := t.proposer, book := none, trade := some t.id, amount := 0, status := TxnStatus.pending }], nextId := s.nextId + 1 } s.nextId none) := by
      simp only [acceptTrade, hval, hacc, hcomp, htx]
    have hbooks1 : (txnComplete { s with books := booksToOwner t.proposer t.recipientBooks (booksToOwner t.recipient t.proposerBooks s.books), trades := tradesMark .completed t.id (tradesMark .accepted t.id s.trades), txns := s.txns ++ [{ id := s.nextId, type := TxnType.trade, buyer := none, seller := t.proposer, book := none, trade := some t.id, amount := 0, status := TxnStatus.pending }], nextId := s.nextId + 1 } s.nextId none).books
        = booksToOwner t.proposer t.recipientBooks (booksToOwner t.recipient t.proposerBooks s.books) :=
      books_txnComplete_tradeType none hft3 rfl
    refine ⟨_, hrun, ?_, ?_, ?_, ?_⟩
    · intro id hid
      obtain ⟨b0, hfb0, _, _⟩ := hpbooks id hid
      have hb0id : b0.id = id := by simpa using List.find?_some hfb0
      show ∃ b1, ((txnComplete _ _ _).books.find? fun b => b.id == id) = some b1
        ∧ b1.seller = t.recipient ∧ b1.isAvailable = false
      rw [hbooks1]
      unfold booksToOwner
      rw [find?_updateWhere (fun b : Book => t.recipientBooks.contains b.id)
        (fun b : Book => { b with seller := t.proposer, isAvailable := false, soldTo := some t.proposer })
        (fun b : Book => b.id == id) (fun b => rfl)]
      rw [find?_updateWhere (fun b : Book => t.proposerBooks.contains b.id)
        (fun b : Book => { b with seller := t.recipient, isAvailable := false, soldTo := some t.recipient })
        (fun b : Book => b.id == id) (fun b => rfl)]
      rw [show List.find? (fun b : Book => b.id == id) s.books = some b0 from hfb0]
      have hcontp : b0.id ∈ t.proposerBooks := by
        rw [hb0id]
        exact hid
      have hcontr : b0.id ∉ t.recipientBooks := by
        rw [hb0id]
        exact hdisj id hid
      simp [hcontp, hcontr]
    · intro id hid
      obtain ⟨b0, hfb0, _, _⟩ := hrbooks id hid
      have hb0id : b0.id = id := by simpa using List.find?_some hfb0
      show ∃ b1, ((txnComplete _ _ _).books.find? fun b => b.id == id) = some b1
        ∧ b1.seller = t.proposer ∧ b1.isAvailable = false
      rw [hbooks1]
      unfold booksToOwner
      rw [find?_updateWhere (fun b : Book => t.recipientBooks.contains b.id)
        (fun b : Book => { b with seller := t.proposer, isAvailable := false, soldTo := some t.proposer })
        (fun b : Book => b.id == id) (fun b => rfl)]
      rw [find?_updateWhere (fun b : Book => t.proposerBooks.contains b.id)
        (fun b : Book => { b with seller := t.recipient, isAvailable := false, soldTo := some t.recipient })
        (fun b : Book => b.id == id) (fun b => rfl)]
      rw [show List.find? (fun b : Book => b.id == id) s.books = some b0 from hfb0]
      have hcontr : b0.id ∈ t.recipientBooks := by
        rw [hb0id]
        exact hid
      have hcontp : b0.id ∉ t.proposerBooks := by
        rw [hb0id]
        intro hmemp
        exact hdisj id hmemp hid
      simp [hcontr, hcontp]
    · show ((txnComplete _ _ _).trades.find? fun x => x.id == tradeId).map (·.status)
        = some TradeStatus.completed
      rw [trades_txnComplete]
      dsimp only
      unfold tradesMark
      rw [← htid]
      rw [find?_updateWhere_self (fun x : Trade => x.id == t.id)
        (fun x : Trade => { x with status := TradeStatus.completed }) (fun x => rfl)]
      rw [find?_updateWhere_self (fun x : Trade => x.id == t.id)
        (fun x : Trade => { x with status := TradeStatus.accepted }) (fun x => rfl)]
      rw [show List.find? (fun x : Trade => x.id == t.id) s.trades = some t by rw [htid]; exact ht]
      rfl
    · refine ⟨{ id := s.nextId, type := TxnType.trade, buyer := none, seller := t.proposer, book := none, trade := some t.id, amount := 0, status := TxnStatus.completed }, ?_, rfl, rfl, rfl⟩
      rw [txns_txnComplete_found none hft3]
      dsimp only
      rw [updateWhere_append, updateWhere_id_of_none _ _ hfresh]
      simp [updateWhere]

/-- Concrete store for the C7 witness: pending trade 50 swapping
book 40 (owner 1) for book 41 (owner 2), both available. -/
def c7WitState : MarketState :=
  { users := [(1, 0), (2, 0)],
    books := [
      { id := 40, seller := 1, listingType := .tradeOnly },
      { id := 41, seller := 2, listingType := .tradeOnly }],
    bids := [], offers := [],
    trades := [{ id := 50, proposer := 1, recipient := 2,
                 proposerBooks := [40], recipientBooks := [41] }],
    txns := [], nextId := 60 }

/-- Claim C7, witness: recipient 2 accepts trade 50 on the concrete
store; afterwards book 40 belongs to user 2 and book 41 to user 1. -/
theorem c7_acceptTrade_spec_witness :
    ∃ s1, acceptTrade c7WitState 50 2 = .ok s1
      ∧ ((findBook s1 40).map (·.seller)) = some 2
      ∧ ((findBook s1 41).map (·.seller)) = some 1 := by
  obtain ⟨s1, hrun, hp, hr, _, _⟩ :=
    (c7_acceptTrade_spec c7WitState 50 2
      { id := 50, proposer := 1, recipient := 2, proposerBooks := [40], recipientBooks := [41] }
      (by decide)).2 rfl rfl (by decide)
      (fun id hid => by rcases List.mem_singleton.mp hid with rfl; exact ⟨_, rfl, rfl, rfl⟩)
      (fun id hid => by rcases List.mem_singleton.mp hid with rfl; exact ⟨_, rfl, rfl, rfl⟩)
      (by decide) (by decide)
  obtain ⟨b1, hf1, hs1, _⟩ := hp 40 (List.mem_singleton.mpr rfl)
  obtain ⟨b2, hf2, hs2, _⟩ := hr 41 (List.mem_singleton.mpr rfl)
  refine ⟨s1, hrun, ?_, ?_⟩
  · rw [hf1]
    simp [hs1]
  · rw [hf2]
    simp [hs2]

/-! ### Claim C1: balance-nonnegativity preservation lemmas -/

theorem users_incBalance (s : MarketState) (u : Nat) (d : Int) :
    (incBalance s u d).users
      = updateWhere (fun q => q.1 == u) (fun q => (q.1, q.2 + d)) s.users := rfl

theorem balancesOk_incBalance_nonneg {s : MarketState} (hok : balancesOk s = true)
    {u : Nat} {d : Int} (hd : 0 ≤ d) : balancesOk (incBalance s u d) = true := by
  unfold balancesOk at hok ⊢
  rw [List.all_eq_true] at hok ⊢
  intro x hx
  rw [users_incBalance] at hx
  rcases (mem_updateWhere_iff _ _).mp hx with ⟨q, hq, rfl⟩
  have hq0 := hok q hq
  simp only [decide_eq_true_eq] at hq0 ⊢
  split_ifs with hpq
  · dsimp only
    omega
  · omega

theorem balancesOk_incBalance_debit {s : MarketState}
    (hnd : (s.users.map Prod.fst).Nodup) (hok : balancesOk s = true)
    {u : Nat} {a : Int}
    (hcov : ∀ bal, findBalance s u = some bal → a ≤ bal) :
    balancesOk (incBalance s u (-a)) = true := by
  unfold balancesOk at hok ⊢
  rw [List.all_eq_true] at hok ⊢
  intro x hx
  rw [users_incBalance] at hx
  rcases (mem_updateWhere_iff _ _).mp hx with ⟨q, hq, rfl⟩
  have hq0 := hok q hq
  simp only [decide_eq_true_eq] at hq0 ⊢
  split_ifs with hpq
  · dsimp only
    have hqu : q.1 = u := by simpa using hpq
    have hfb : findBalance s q.1 = some q.2 := findBalance_of_mem_nodup hnd hq
    rw [hqu] at hfb
    have hle := hcov q.2 hfb
    omega
  · omega

theorem balancesOk_settle {s : MarketState}
    (hnd : (s.users.map Prod.fst).Nodup) (hok : balancesOk s = true)
    {bu se : Nat} {a : Int} (ha : 0 ≤ a)
    (hcov : ∀ bal, findBalance s bu = some bal → a ≤ bal) :
    balancesOk (incBalance (incBalance s bu (-a)) se a) = true :=
  balancesOk_incBalance_nonneg (balancesOk_incBalance_debit hnd hok hcov) ha

/-- A checked sale settlement preserves balance nonnegativity: saving a
fresh non-trade Transaction and completing it (the debit of the buyer
and the credit of the seller) keeps every balance nonnegative as long
as the buyer's stored balance covers the amount.  `sB` is the store at
the save (it may differ from the reference store `s` in the documents
the settlement does not read). -/
theorem balancesOk_commitSale (sB s : MarketState)
    (hus : sB.users = s.users) (hnx : sB.nextId = s.nextId) (htx : sB.txns = s.txns)
    (hnd : (s.users.map Prod.fst).Nodup) (hok : balancesOk s = true)
    (hbnd : txnIdsBounded s = true)
    {buyer seller0 : Nat} {amt : Int} {bk : Option Nat} {ty : TxnType}
    (hty : (ty != TxnType.trade) = true)
    (hcov : ∀ bal, findBalance s buyer = some bal → amt ≤ bal)
    (bu : Option Nat) :
    balancesOk (txnComplete { sB with txns := sB.txns ++ [{ id := sB.nextId, type := ty, buyer := some buyer, seller := seller0, book := bk, trade := none, amount := amt, status := TxnStatus.pending }], nextId := sB.nextId + 1 } sB.nextId bu) = true := by
  have hfreshB : ∀ x ∈ sB.txns, (x.id == sB.nextId) = false := by
    intro x hx
    rw [htx] at hx
    rw [hnx]
    exact txnIdFresh_of_bounded hbnd x hx
  have hft : findTxn { sB with txns := sB.txns ++ [{ id := sB.nextId, type := ty, buyer := some buyer, seller := seller0, book := bk, trade := none, amount := amt, status := TxnStatus.pending }], nextId := sB.nextId + 1 } sB.nextId = some { id := sB.nextId, type := ty, buyer := some buyer, seller := seller0, book := bk, trade := none, amount := amt, status := TxnStatus.pending } := by
    unfold findTxn
    dsimp only
    rw [find?_append_right _ hfreshB]
    simp
  have hxusers := users_txnComplete_found bu hft hty rfl
  unfold balancesOk
  rw [hxusers]
  split_ifs with hpos
  · have hset := @balancesOk_settle s hnd hok buyer seller0 amt (le_of_lt hpos) hcov
    unfold balancesOk at hset
    have husers2 : (incBalance (incBalance { sB with txns := sB.txns ++ [{ id := sB.nextId, type := ty, buyer := some buyer, seller := seller0, book := bk, trade := none, amount := amt, status := TxnStatus.pending }], nextId := sB.nextId + 1 } buyer (-amt)) seller0 amt).users = (incBalance (incBalance s buyer (-amt)) seller0 amt).users := by
      simp only [users_incBalance]
      rw [hus]
    rw [husers2]
    exact hset
  · rw [hus]
    unfold balancesOk at hok
    exact hok

/-- Claim C1, amended: balance nonnegativity is preserved by every
ledger-guarded operation - addFunds, deductFunds and transferFunds
never commit at all (their Transaction documents carry types outside
the schema enum, so every call fails validation and aborts with the
store unchanged), placeBid never touches balances, and purchaseBook /
acceptOffer / acceptCounterOffer check the buyer's balance in the same
atomic unit as the debit - but auction settlement (endAuction, run by
the sweep and by manuallyEndAuction) debits the winning bidder with NO
balance re-check, so it preserves nonnegativity only under the extra
hypothesis that the winner's balance at settlement still covers the
winning amount.  Without that hypothesis the invariant fails, as the
C1 counterexample shows. -/
theorem c1_balance_amended (s : MarketState)
    (hnd : (s.users.map Prod.fst).Nodup)
    (hok : balancesOk s = true)
    (hbnd : txnIdsBounded s = true)
    (hbidamts : ∀ bd ∈ s.bids, 0 ≤ bd.amount) :
    (∀ u a, ∃ e, addFunds s u a = .error e)
    ∧ (∀ u a, ∃ e, deductFunds s u a = .error e)
    ∧ (∀ u v a, ∃ e, transferFunds s u v a = .error e)
    ∧ (∀ bookId bidderId a now s1, placeBid s bookId bidderId a now = .ok s1 →
        s1.users = s.users ∧ balancesOk s1 = true)
    ∧ (∀ bookId buyerId s1, purchaseBook s bookId buyerId = .ok s1 → balancesOk s1 = true)
    ∧ (∀ offerId sellerId now s1, acceptOffer s offerId sellerId now = .ok s1 →
        balancesOk s1 = true)
    ∧ (∀ offerId buyerId now s1, acceptCounterOffer s offerId buyerId now = .ok s1 →
        balancesOk s1 = true)
    ∧ (∀ bookId wb bal s1, endAuction s bookId = .ok s1 →
        (s.bids.find? fun b => b.book == bookId && b.isWinning) = some wb →
        findBalance s wb.bidder = some bal → wb.amount ≤ bal →
        balancesOk s1 = true) := by
  refine ⟨?_, ?_, ?_, ?_, ?_, ?_, ?_, ?_⟩
  · intro u a
    simp only [addFunds]
    split_ifs with h1
    · exact ⟨_, rfl⟩
    · cases hfb : findBalance s u with
      | none => exact ⟨_, rfl⟩
      | some bal => exact ⟨"Transaction validation failed", rfl⟩
  · intro u a
    simp only [deductFunds]
    split_ifs with h1
    · exact ⟨_, rfl⟩
    · cases hfb : findBalance s u with
      | none => exact ⟨_, rfl⟩
      | some bal =>
        dsimp only
        split_ifs with h2
        · exact ⟨_, rfl⟩
        · exact ⟨"Transaction validation failed", rfl⟩
  · intro u v a
    simp only [transferFunds]
    split_ifs with h1 h2
    · exact ⟨_, rfl⟩
    · exact ⟨_, rfl⟩
    · cases hf1 : findBalance s u with
      | none => exact ⟨_, rfl⟩
      | some fromBal =>
        cases hf2 : findBalance s v with
        | none => exact ⟨_, rfl⟩
        | some toBal =>
          dsimp only
          split_ifs with h3
          · exact ⟨_, rfl⟩
          · exact ⟨"Transaction validation failed", rfl⟩
  · intro bookId bidderId a now s1 h
    simp only [placeBid] at h
    cases hfb : findBook s bookId with
    | none => simp only [hfb] at h; cases h
    | some book =>
      cases hub : findBalance s bidderId with
      | none =>
        simp only [hfb, hub] at h
        split_ifs at h <;> cases h
      | some bal =>
        simp only [hfb, hub] at h
        split_ifs at h with h2 h3 h4 h5 h6 h7 h8 <;> try cases h
        constructor
        · rfl
        · exact hok
  · intro bookId buyerId s1 h
    simp only [purchaseBook, createFixedPriceTxn, txnSave] at h
    cases hfb : findBook s bookId with
    | none => simp only [hfb] at h; cases h
    | some book =>
      cases hub : findBalance s buyerId with
      | none =>
        simp only [hfb, hub] at h
        split_ifs at h <;> cases h
      | some bal =>
        simp only [hfb, hub] at h
        split_ifs at h with h2 h3 h4 h5 <;> try cases h
        have hcov : ∀ bal0, findBalance s buyerId = some bal0 → book.fixedPrice ≤ bal0 := by
          intro bal0 hb0
          rw [hub] at hb0
          cases hb0
          omega
        exact balancesOk_commitSale s s rfl rfl rfl hnd hok hbnd (by decide) hcov (some buyerId)
  · intro offerId sellerId now s1 h
    cases hofind : findOffer s offerId with
    | none =>
      simp only [acceptOffer, hofind] at h
      cases h
    | some offer =>
      simp only [acceptOffer, hofind, offerAccept, createOfferTxn, txnSave] at h
      cases hbk : findBook s offer.book with
      | none =>
        simp only [hbk] at h
        split_ifs at h <;> cases h
      | some book =>
        cases hbb : findBalance s offer.buyer with
        | none =>
          simp only [hbk, hbb] at h
          split_ifs at h <;> cases h
        | some bal =>
          simp only [hbk, hbb] at h
          split_ifs at h with h2 h3 h4 h5 h6 h7 <;> try cases h
          dsimp only at h
          split_ifs at h with hval
          dsimp only at h
          cases h
          have hcov : ∀ bal0, findBalance s offer.buyer = some bal0 → offer.amount ≤ bal0 := by
            intro bal0 hb0
            rw [hbb] at hb0
            cases hb0
            omega
          exact balancesOk_commitSale { s with offers := updateWhere (fun x => x.id == offer.id) (fun x => { x with status := OfferStatus.accepted }) s.offers } s rfl rfl rfl hnd hok hbnd (by decide) hcov (some offer.buyer)
  · intro offerId buyerId now s1 h
    cases hofind : findOffer s offerId with
    | none =>
      simp only [acceptCounterOffer, hofind] at h
      cases h
    | some offer =>
      simp only [acceptCounterOffer, hofind, offerAccept, createOfferTxn, txnSave] at h
      cases hbk : findBook s offer.book with
      | none =>
        simp only [hbk] at h
        split_ifs at h <;> cases h
      | some book =>
        cases hbb : findBalance s buyerId with
        | none =>
          simp only [hbk, hbb] at h
          split_ifs at h <;> cases h
        | some bal =>
          simp only [hbk, hbb] at h
          split_ifs at h with h2 h3 h4 h5 h6 h7 h8 <;> try cases h
          dsimp only at h
          split_ifs at h with hval
          dsimp only at h
          cases h
          have hbuyeq : offer.buyer = buyerId := by simpa using h3
          have hcov : ∀ bal0, findBalance s offer.buyer = some bal0 →
              offer.counterOfferAmount.getD 0 ≤ bal0 := by
            intro bal0 hb0
            rw [hbuyeq, hbb] at hb0
            cases hb0
            omega
          exact balancesOk_commitSale { s with offers := updateWhere (fun x => x.id == offer.id) (fun x => { x with status := OfferStatus.accepted }) (updateWhere (fun x => x.id == offer.id) (fun x => { x with amount := offer.counterOfferAmount.getD 0 }) s.offers) } s rfl rfl rfl hnd hok hbnd (by decide) hcov (some buyerId)
  · intro bookId wb bal s1 h hwb hub2 hcover
    cases hfb : findBook s bookId with
    | none =>
      have h0 := h
      simp only [endAuction, hfb] at h0
      cases h0
    | some book =>
      have h0 := h
      simp only [endAuction, hfb] at h0
      split_ifs at h0 with hty0
      have hty : book.listingType = .auction := by simpa using hty0
      obtain ⟨s1x, hrunx, hbidsx, hactx, havx, hltx, hmapx, hothx, hbndx, hwin, hnowin⟩ :=
        endAuction_ok hfb hty hbidamts hbnd
      rw [h] at hrunx
      cases hrunx
      obtain ⟨htx1, husers⟩ := hwin wb hwb
      unfold balancesOk
      rw [husers]
      split_ifs with hpos
      · have hcov : ∀ bal0, findBalance s wb.bidder = some bal0 → wb.amount ≤ bal0 := by
          intro bal0 hb0
          rw [hub2] at hb0
          cases hb0
          exact hcover
        have hset := @balancesOk_settle s hnd hok wb.bidder book.seller wb.amount (le_of_lt hpos) hcov
        unfold balancesOk at hset
        exact hset
      · exact hok

/-- Claim C1, amended, witness: on the concrete store c1Init (all
balances nonnegative), the fixed-price purchase of book 11 by buyer 2
succeeds and every balance stays nonnegative. -/
theorem c1_balance_amended_witness :
    ∃ s1, purchaseBook c1Init 11 2 = Except.ok s1 ∧ balancesOk s1 = true := by
  refine ⟨_, rfl, ?_⟩
  exact (c1_balance_amended c1Init (by decide) (by decide) (by decide)
    (by decide)).2.2.2.2.1 11 2 _ rfl

end BookMarket
